import Mathlib

/-!
# Time library: calendar conversion and clock engine

A shallow embedding of `src/Time.cpp` / `src/TimeLib.h`.

Conventions of the embedding

* `time_t` is the header's own `typedef unsigned long time_t`, and `unsigned long`,
  `unsigned` and `uint32_t` are 32 bits wide, as on the boards the library targets.
  Values of these types are natural numbers below `2^32`; every operation that can
  leave that range is followed by an explicit reduction modulo `2^32`.
* `uint8_t` counters are natural numbers reduced modulo `256` when incremented.
* `int` values (the fields of `struct tm`, the arguments of the six-argument
  `setTime`) are mathematical integers.
* A loop whose exit is not syntactically bounded takes a fuel argument and yields
  `none` when the fuel is used up; reading past the end of `monthDays` yields `none`.
* `millis()` and the sync provider are the environment: an operation that calls
  `millis()` takes the reading `m`, an operation that may call the provider takes
  the value `r` the provider hands back when it is called.
-/

namespace TimeLib

/-! ## Machine arithmetic -/

/-- Conversion of a mathematical integer to a 32-bit unsigned value. -/
def u32 (x : Int) : Nat := (x % 4294967296).toNat

/-- Addition of two 32-bit unsigned values. -/
def add32 (a b : Nat) : Nat := (a + b) % 4294967296

/-- Subtraction of two 32-bit unsigned values. -/
def sub32 (a b : Nat) : Nat := u32 ((a : Int) - (b : Int))

/-! ## Data model (`TimeLib.h`) -/

/-- The enum `timeStatus_t` of `TimeLib.h`. -/
inductive timeStatus_t where
  | timeNotSet
  | timeNeedsSync
  | timeSet
deriving DecidableEq, Repr

/-- The C library's `struct tm`; all fields are `int`. -/
structure tm where
  tm_sec : Int
  tm_min : Int
  tm_hour : Int
  tm_mday : Int
  tm_mon : Int
  tm_year : Int
  tm_wday : Int
  tm_yday : Int
  tm_isdst : Int
deriving DecidableEq, Repr

/-- `#define SECS_PER_MIN  ((time_t)(60UL))` -/
def SECS_PER_MIN : Nat := 60

/-- `#define SECS_PER_HOUR ((time_t)(3600UL))` -/
def SECS_PER_HOUR : Nat := 3600

/-- `#define SECS_PER_DAY  ((time_t)(SECS_PER_HOUR * 24UL))` -/
def SECS_PER_DAY : Nat := SECS_PER_HOUR * 24

/-- `#define SECS_YR_2000  ((time_t)(946684800UL))` -/
def SECS_YR_2000 : Nat := 946684800

/-- `#define tmYearToCalendar(Y) ((Y) + 1970)` -/
def tmYearToCalendar (Y : Int) : Int := Y + 1970

/-- `#define CalendarYrToTm(Y) ((Y) - 1970)` -/
def CalendarYrToTm (Y : Int) : Int := Y - 1970

/-- `#define y2kYearToTm(Y) ((Y) + 30)` -/
def y2kYearToTm (Y : Int) : Int := Y + 30

/-! ## Calendar conversion (`Time.cpp`, lines 171-258) -/

/-- The macro `LEAP_YEAR(Y)`: `Y` is the year offset from 1970.
`((1970+(Y))>0) && !((1970+(Y))%4) && ( ((1970+(Y))%100) || !((1970+(Y))%400) )`.
The remainders are only looked at when `1970+Y` is positive, where the C remainder
and `%` on `Int` agree. -/
def LEAP_YEAR (Y : Int) : Bool :=
  decide (1970 + Y > 0) && ((1970 + Y) % 4 == 0) &&
    (((1970 + Y) % 100 != 0) || ((1970 + Y) % 400 == 0))

/-- The table `monthDays[]`; index 0 is January. -/
def monthDays : List Nat := [31, 28, 31, 30, 31, 30, 31, 31, 30, 31, 30, 31]

/-- The year walk of `breakTime`:
`while((unsigned)(days += (LEAP_YEAR(year) ? 366 : 365)) <= time) year++;`
with `year` a `uint8_t` and `days` an `unsigned long`.  The result is `(year, days)`
at loop exit; every unit of fuel pays for one evaluation of the loop condition. -/
def yearLoop : Nat → Nat → Nat → Nat → Option (Nat × Nat)
  | 0, _, _, _ => none
  | fuel + 1, time, year, days =>
    let days1 := add32 days (if LEAP_YEAR (year : Int) then 366 else 365)
    if days1 ≤ time then yearLoop fuel time ((year + 1) % 256) days1
    else some (year, days1)

/-- Fuel of the year walk: the loop state is a pair of a `uint8_t` and a 32-bit
value, so a walk that has not left the loop after `2^8 * 2^32` tests never does. -/
def yearFuel : Nat := 1099511627776

/-- The month walk of `breakTime`:
`for (month=0; month<12; month++) { ... if (time >= monthLength) time -= monthLength; else break; }`
The first argument counts the iterations still allowed; 12 of them exhaust the
`month<12` guard.  The result is `(month, time)` at loop exit. -/
def monthLoop (year : Nat) : Nat → Nat → Nat → Nat × Nat
  | 0, month, time => (month, time)
  | n + 1, month, time =>
    if month < 12 then
      let monthLength :=
        if month = 1 then (if LEAP_YEAR (year : Int) then 29 else 28)
        else monthDays.getD month 0
      if time ≥ monthLength then monthLoop year n (month + 1) (time - monthLength)
      else (month, time)
    else (month, time)

/-- `void TimeClass::breakTime(time_t timeInput, tm &tme)`: the fields of `tme` that
the function assigns are replaced, `tm_yday` and `tm_isdst` are left as they were. -/
def breakTime (timeInput : Nat) (tme : tm) : Option tm :=
  let time0 := timeInput % 4294967296
  let sec := time0 % 60
  let time1 := time0 / 60
  let min := time1 % 60
  let time2 := time1 / 60
  let hour := time2 % 24
  let time3 := time2 / 24
  let wday := (add32 time3 4 % 7) + 1
  match yearLoop yearFuel time3 0 0 with
  | none => none
  | some (year, days) =>
    let days1 := sub32 days (if LEAP_YEAR (year : Int) then 366 else 365)
    let time4 := sub32 time3 days1
    let r := monthLoop year 12 0 time4
    some { tme with
      tm_sec := (sec : Int)
      tm_min := (min : Int)
      tm_hour := (hour : Int)
      tm_wday := (wday : Int)
      tm_year := (year : Int)
      tm_mon := ((r.1 : Int) + 1)
      tm_mday := ((add32 r.2 1 : Nat) : Int) }

/-- The first loop of `makeTime`:
`for (i = 0; i < tme.tm_year; i++) if (LEAP_YEAR(i)) seconds += SECS_PER_DAY;`
The first argument is the number of iterations left. -/
def leapLoop : Nat → Int → Nat → Nat
  | 0, _, seconds => seconds
  | n + 1, i, seconds =>
    leapLoop n (i + 1) (if LEAP_YEAR i then add32 seconds SECS_PER_DAY else seconds)

/-- The second loop of `makeTime`:
`for (i = 1; i < tme.tm_mon; i++)` adding `SECS_PER_DAY * 29` for a leap February
and `SECS_PER_DAY * monthDays[i-1]` otherwise.  The first argument is the number of
iterations left; a read outside `monthDays` gives `none`. -/
def monthSecLoop (leap : Bool) : Nat → Nat → Nat → Option Nat
  | 0, _, seconds => some seconds
  | n + 1, i, seconds =>
    if i = 2 ∧ leap = true then
      monthSecLoop leap n (i + 1) (add32 seconds (SECS_PER_DAY * 29))
    else
      match monthDays.get? (i - 1) with
      | none => none
      | some d => monthSecLoop leap n (i + 1) (add32 seconds (SECS_PER_DAY * d))

/-- `time_t TimeClass::makeTime(const tm &tme)`. -/
def makeTime (tme : tm) : Option Nat :=
  let seconds0 := u32 (tme.tm_year * ((SECS_PER_DAY : Int) * 365))
  let seconds1 := leapLoop tme.tm_year.toNat 0 seconds0
  match monthSecLoop (LEAP_YEAR tme.tm_year) (tme.tm_mon - 1).toNat 1 seconds1 with
  | none => none
  | some seconds2 =>
    let seconds3 := add32 seconds2 (u32 ((tme.tm_mday - 1) * (SECS_PER_DAY : Int)))
    let seconds4 := add32 seconds3 (u32 (tme.tm_hour * (SECS_PER_HOUR : Int)))
    let seconds5 := add32 seconds4 (u32 (tme.tm_min * (SECS_PER_MIN : Int)))
    let seconds6 := add32 seconds5 (u32 tme.tm_sec)
    some seconds6

/-! ## Clock engine (`Time.cpp`, lines 63-72 and 262-347) -/

/-- The file-scope variables of `Time.cpp`: `sysTime`, `prevMillis`, `nextSyncTime`,
`Status`, `getTimePtr` (`none` is the null pointer, `some p` the address of a
provider function), `syncInterval`, `cacheTime` and the static member `_tm`.
`providerCalls` is a ghost counter, not a variable of the program: it counts the
calls made through `getTimePtr`. -/
structure ClockState where
  sysTime : Nat
  prevMillis : Nat
  nextSyncTime : Nat
  Status : timeStatus_t
  getTimePtr : Option Nat
  syncInterval : Nat
  cacheTime : Nat
  _tm : tm
  providerCalls : Nat
deriving DecidableEq, Repr

/-- The state at process start: the initialisers of `Time.cpp`, zero for the rest. -/
def initialState : ClockState :=
  { sysTime := 0
    prevMillis := 0
    nextSyncTime := 0
    Status := timeStatus_t.timeNotSet
    getTimePtr := none
    syncInterval := 300
    cacheTime := 0
    _tm := ⟨0, 0, 0, 0, 0, 0, 0, 0, 0⟩
    providerCalls := 0 }

/-- `void TimeClass::setTime(time_t t)`; `m` is the reading of `millis()`. -/
def setTime (s : ClockState) (t : Nat) (m : Nat) : ClockState :=
  { s with
    sysTime := t % 4294967296
    nextSyncTime := add32 (t % 4294967296) s.syncInterval
    Status := timeStatus_t.timeSet
    prevMillis := m }

/-- The tick loop of `now()`:
`while (millis() - prevMillis >= 1000) { sysTime++; prevMillis += 1000; }`
with `m` the reading of `millis()`.  The result is `(sysTime, prevMillis)` at loop
exit; every unit of fuel pays for one evaluation of the loop condition. -/
def tickLoop : Nat → Nat → Nat → Nat → Option (Nat × Nat)
  | 0, _, _, _ => none
  | fuel + 1, m, sysTime, prevMillis =>
    if sub32 m prevMillis ≥ 1000 then
      tickLoop fuel m (add32 sysTime 1) (add32 prevMillis 1000)
    else some (sysTime, prevMillis)

/-- Fuel of the tick loop: the loop condition depends on the 32-bit `prevMillis`
only, so a loop that has not ended after `2^32` tests never does. -/
def tickFuel : Nat := 4294967296

/-- `time_t TimeClass::now()`; `m` is the reading of `millis()` during the call and
`r` the value the sync provider returns if it is called.  The result is the new
state and the returned time. -/
def now (s : ClockState) (m r : Nat) : Option (ClockState × Nat) :=
  match tickLoop tickFuel m s.sysTime s.prevMillis with
  | none => none
  | some (sysTime1, prevMillis1) =>
    let s1 := { s with sysTime := sysTime1, prevMillis := prevMillis1 }
    let s2 :=
      if s1.nextSyncTime ≤ s1.sysTime then
        match s1.getTimePtr with
        | none => s1
        | some _ =>
          let s1c := { s1 with providerCalls := s1.providerCalls + 1 }
          if r ≠ 0 then setTime s1c r m
          else
            { s1c with
              nextSyncTime := add32 s1c.sysTime s1c.syncInterval
              Status :=
                if s1c.Status = timeStatus_t.timeNotSet then timeStatus_t.timeNotSet
                else timeStatus_t.timeNeedsSync }
      else s1
    some (s2, s2.sysTime)

/-- `void TimeClass::setTime(int hr,int min,int sec,int dy, int mnth, int yr)`;
`m` is the reading of `millis()`.  The components are written into `_tm`, whose other
fields keep their values, and `setTime(makeTime(_tm))` follows. -/
def setTime6 (s : ClockState) (m : Nat) (hr min sec dy mnth yr : Int) : Option ClockState :=
  let yr1 := if yr > 99 then yr - 1970 else yr + 30
  let tm1 : tm :=
    { s._tm with
      tm_year := yr1
      tm_mon := mnth
      tm_mday := dy
      tm_hour := hr
      tm_min := min
      tm_sec := sec }
  match makeTime tm1 with
  | none => none
  | some t => some (setTime { s with _tm := tm1 } t m)

/-- `void TimeClass::adjustTime(long adjustment)`: `sysTime += adjustment;`. -/
def adjustTime (s : ClockState) (adjustment : Int) : ClockState :=
  { s with sysTime := u32 ((s.sysTime : Int) + adjustment) }

/-- `timeStatus_t TimeClass::timeStatus()`: `now(); return Status;`. -/
def timeStatus (s : ClockState) (m r : Nat) : Option (ClockState × timeStatus_t) :=
  match now s m r with
  | none => none
  | some (s1, _) => some (s1, s1.Status)

/-- `void TimeClass::setSyncProvider(getExternalTime getTimeFunction)`. -/
def setSyncProvider (s : ClockState) (getTimeFunction : Option Nat) (m r : Nat) :
    Option ClockState :=
  let s1 := { s with getTimePtr := getTimeFunction, nextSyncTime := s.sysTime }
  match now s1 m r with
  | none => none
  | some (s2, _) => some s2

/-- `void TimeClass::setSyncInterval(time_t interval)`. -/
def setSyncInterval (s : ClockState) (interval : Nat) : ClockState :=
  { s with
    syncInterval := interval % 4294967296
    nextSyncTime := add32 s.sysTime (interval % 4294967296) }

/-- A run of consecutive `now()` calls; each call comes with its tick reading and the
value the provider would return.  The result is the final state and the list of the
values the calls returned. -/
def nowAll : ClockState → List (Nat × Nat) → Option (ClockState × List Nat)
  | s, [] => some (s, [])
  | s, c :: rest =>
    match now s c.1 c.2 with
    | none => none
    | some (s1, v) =>
      match nowAll s1 rest with
      | none => none
      | some (s2, vs) => some (s2, v :: vs)

/-- The clock variables of a state, without the breakdown cache and the ghost
counter: `sysTime`, `prevMillis`, `nextSyncTime`, `Status`, `syncInterval`,
`getTimePtr`. -/
def clockVars (s : ClockState) : Nat × Nat × Nat × timeStatus_t × Nat × Option Nat :=
  (s.sysTime, s.prevMillis, s.nextSyncTime, s.Status, s.syncInterval, s.getTimePtr)

/-- The broken-down time that the six-argument `setTime` passes to `makeTime`, in the
words of the specification: the components as given, with `tm_year = yr - 1970` for
`yr > 99` and `tm_year = yr + 30` otherwise; the remaining fields are those of `old`. -/
def componentsTm (old : tm) (hr min sec dy mnth yr : Int) : tm :=
  { old with
    tm_year := if yr > 99 then CalendarYrToTm yr else y2kYearToTm yr
    tm_mon := mnth
    tm_mday := dy
    tm_hour := hr
    tm_min := min
    tm_sec := sec }

/-- The state of the clock variables when the tick loop of `now()` has ended, in
closed form: `k = ((m - prevMillis) mod 2^32) / 1000` seconds have been added. -/
def afterTicks (s : ClockState) (m : Nat) : ClockState :=
  { s with
    sysTime := (s.sysTime + sub32 m s.prevMillis / 1000) % 4294967296
    prevMillis := (s.prevMillis + 1000 * (sub32 m s.prevMillis / 1000)) % 4294967296 }

/-- The resync check of `now()`, the statement `if (nextSyncTime <= sysTime) { ... }`,
as a function of the state the tick loop leaves. -/
def resyncCheck (s1 : ClockState) (m r : Nat) : ClockState :=
  if s1.nextSyncTime ≤ s1.sysTime then
    match s1.getTimePtr with
    | none => s1
    | some _ =>
      let s1c := { s1 with providerCalls := s1.providerCalls + 1 }
      if r ≠ 0 then setTime s1c r m
      else
        { s1c with
          nextSyncTime := add32 s1c.sysTime s1c.syncInterval
          Status :=
            if s1c.Status = timeStatus_t.timeNotSet then timeStatus_t.timeNotSet
            else timeStatus_t.timeNeedsSync }
  else s1

/-- A call of one of the public operations other than `setTime`, with the readings
of the environment during the call. -/
inductive Op where
  | now (m r : Nat)
  | timeStatus (m r : Nat)
  | adjustTime (adjustment : Int)
  | setSyncInterval (interval : Nat)
  | setSyncProvider (getTimeFunction : Option Nat) (m r : Nat)
deriving DecidableEq, Repr

/-- The state after one call. -/
def stepOp (s : ClockState) : Op → Option ClockState
  | Op.now m r => (now s m r).map Prod.fst
  | Op.timeStatus m r => (timeStatus s m r).map Prod.fst
  | Op.adjustTime adjustment => some (adjustTime s adjustment)
  | Op.setSyncInterval interval => some (setSyncInterval s interval)
  | Op.setSyncProvider getTimeFunction m r => setSyncProvider s getTimeFunction m r

/-- The state after a finite sequence of calls. -/
def runOps : ClockState → List Op → Option ClockState
  | s, [] => some s
  | s, op :: rest =>
    match stepOp s op with
    | none => none
    | some s1 => runOps s1 rest

/-- The provider reading that comes with a call is 0. -/
def readingZero : Op → Prop
  | Op.now _ r => r = 0
  | Op.timeStatus _ r => r = 0
  | Op.adjustTime _ => True
  | Op.setSyncInterval _ => True
  | Op.setSyncProvider _ _ r => r = 0

/-- The call registers no provider: it is not `setSyncProvider`, or it passes the
null pointer. -/
def registersNone : Op → Prop
  | Op.setSyncProvider getTimeFunction _ _ => getTimeFunction = none
  | _ => True

/-- An example state: the clock was set to 1000 at tick 0, the next sync is due at
1300, and a provider is registered. -/
def exampleClock : ClockState :=
  { initialState with
    sysTime := 1000
    nextSyncTime := 1300
    Status := timeStatus_t.timeSet
    getTimePtr := some 1 }

/-- The example state after a failed resync attempt. -/
def exampleClockNeedsSync : ClockState :=
  { exampleClock with Status := timeStatus_t.timeNeedsSync }

/-! ## Field accessors (`Time.cpp`, lines 67-165) -/

/-- `void TimeClass::refreshCache(time_t t)`:
`if (t != cacheTime) { breakTime(t, _tm); cacheTime = t; }`. -/
def refreshCache (s : ClockState) (t : Nat) : Option ClockState :=
  if t ≠ s.cacheTime then
    match breakTime t s._tm with
    | none => none
    | some b => some { s with _tm := b, cacheTime := t }
  else some s

/-- `int TimeClass::hour(time_t t)`; the result is the new state and the value. -/
def hour (s : ClockState) (t : Nat) : Option (ClockState × Int) :=
  match refreshCache s t with
  | none => none
  | some s1 => some (s1, s1._tm.tm_hour)

/-- `int TimeClass::hourFormat12(time_t t)`. -/
def hourFormat12 (s : ClockState) (t : Nat) : Option (ClockState × Int) :=
  match refreshCache s t with
  | none => none
  | some s1 =>
    if s1._tm.tm_hour = 0 then some (s1, 12)
    else if s1._tm.tm_hour > 12 then some (s1, s1._tm.tm_hour - 12)
    else some (s1, s1._tm.tm_hour)

/-- `int TimeClass::minute(time_t t)`. -/
def minute (s : ClockState) (t : Nat) : Option (ClockState × Int) :=
  match refreshCache s t with
  | none => none
  | some s1 => some (s1, s1._tm.tm_min)

/-- `int TimeClass::second(time_t t)`. -/
def second (s : ClockState) (t : Nat) : Option (ClockState × Int) :=
  match refreshCache s t with
  | none => none
  | some s1 => some (s1, s1._tm.tm_sec)

/-- `int TimeClass::day(time_t t)`. -/
def day (s : ClockState) (t : Nat) : Option (ClockState × Int) :=
  match refreshCache s t with
  | none => none
  | some s1 => some (s1, s1._tm.tm_mday)

/-- `int TimeClass::weekday(time_t t)`. -/
def weekday (s : ClockState) (t : Nat) : Option (ClockState × Int) :=
  match refreshCache s t with
  | none => none
  | some s1 => some (s1, s1._tm.tm_wday)

/-- `int TimeClass::month(time_t t)`. -/
def month (s : ClockState) (t : Nat) : Option (ClockState × Int) :=
  match refreshCache s t with
  | none => none
  | some s1 => some (s1, s1._tm.tm_mon)

/-- `int TimeClass::year(time_t t)`: `return tmYearToCalendar(_tm.tm_year);`. -/
def year (s : ClockState) (t : Nat) : Option (ClockState × Int) :=
  match refreshCache s t with
  | none => none
  | some s1 => some (s1, tmYearToCalendar s1._tm.tm_year)

/-- The 12-hour mapping in the words of the specification: 12 for hour 0, `h - 12`
for `13 ≤ h ≤ 23`, and `h` otherwise. -/
def hour12 (h : Int) : Int :=
  if h = 0 then 12 else if 13 ≤ h ∧ h ≤ 23 then h - 12 else h

/-- Cache coherence: the cached breakdown `_tm` is the breakdown of `cacheTime`. -/
def Coherent (s : ClockState) : Prop := breakTime s.cacheTime s._tm = some s._tm

/-- An example state with a coherent cache: the breakdown of `t = 86400`
(Friday 1970-01-02, 00:00:00) is cached. -/
def exampleCached : ClockState :=
  { initialState with
    cacheTime := 86400
    _tm := ⟨0, 0, 0, 2, 1, 0, 6, 0, 0⟩ }

/-! ## Time zone string and `%z` substitution (`Time.cpp`, lines 387-418)

Strings are lists of characters without the terminating zero byte; a buffer is the
list of its bytes.  `snprintf`, `strlen` and `memcpy` are functions of the C library:
the two conversions of `snprintf` and `strlen` are written out after the C standard,
and the `memcpy` that moves the tail of the pattern inside `format_str` is a
parameter of the substitution, with the standard's contract `memcpyStd` and two
implementations, `memcpyAscending` and `memcpyMove`, given for it. -/

/-- `#define t_abs(x) ((x)>0?(x):-(x))` -/
def t_abs (x : Int) : Int := if x > 0 then x else -x

/-- The conversion `%+03d` of `snprintf`: a sign, always written, and the decimal
digits of the magnitude, padded with zeros on the left to a total width of 3. -/
def fmtSigned03 (x : Int) : List Char :=
  (if x < 0 then '-' else '+') ::
    (List.replicate (2 - (Nat.toDigits 10 x.natAbs).length) '0' ++ Nat.toDigits 10 x.natAbs)

/-- The conversion `%02u` of `snprintf`: the decimal digits, padded with zeros on the
left to a width of 2. -/
def fmtUnsigned02 (x : Nat) : List Char :=
  List.replicate (2 - (Nat.toDigits 10 x).length) '0' ++ Nat.toDigits 10 x

/-- The string `time_zone_str` of `timeFormatImpl`: `Z` when `time_zone` is 0,
otherwise the output of
`snprintf(time_zone_str, 16, "%+03d:%02u", time_zone/3600, t_abs(time_zone/60)%60)`.
The division and remainder of C truncate towards zero; `snprintf` keeps at most 15
characters. -/
def timeZoneStr (time_zone : Int) : List Char :=
  if time_zone = 0 then ['Z']
  else
    (fmtSigned03 (Int.tdiv time_zone 3600) ++ [':'] ++
      fmtUnsigned02 (Int.tmod (t_abs (Int.tdiv time_zone 60)) 60).toNat).take 15

/-- The two decimal digits of a number below 100. -/
def twoDigits (n : Nat) : List Char :=
  [Char.ofNat (48 + n / 10), Char.ofNat (48 + n % 10)]

/-- The time zone string in the words of the specification: `Z` for offset 0,
otherwise the sign of the offset, the two-digit value of `|z| / 3600`, a colon, and
the two-digit value of `(|z| / 60) mod 60`. -/
def tzSpec (z : Int) : List Char :=
  if z = 0 then ['Z']
  else
    (if z > 0 then '+' else '-') ::
      (twoDigits (z.natAbs / 3600) ++ [':'] ++ twoDigits (z.natAbs / 60 % 60))

/-- The zero byte that ends a C string. -/
def NUL : Char := Char.ofNat 0

/-- The buffer `format_str` after `strncpy(format_str, format, 63)` and
`format_str[63] = 0`: at most 63 characters of the pattern, then zero bytes up to
the size 64. -/
def initFormatStr (format : List Char) : List Char :=
  (format.takeWhile (fun c => c ≠ NUL)).take 63 ++
    List.replicate (64 - ((format.takeWhile (fun c => c ≠ NUL)).take 63).length) NUL

/-- `strlen` on a buffer: the index of the first zero byte; `none` when there is no
zero byte in the buffer, where the scan leaves it. -/
def strlen (buf : List Char) : Option Nat :=
  buf.findIdx? (fun c => c == NUL)

/-- The buffer with `data` written from index `pos` on. -/
def writeAt (buf : List Char) (pos : Nat) (data : List Char) : List Char :=
  buf.take pos ++ data ++ buf.drop (pos + data.length)

/-- `memcpy(buf + dst, buf + src, n)` by its contract in the C standard: the
behaviour is undefined, here `none`, when a region leaves the buffer or when the two
regions overlap. -/
def memcpyStd (buf : List Char) (dst src n : Nat) : Option (List Char) :=
  if dst + n ≤ buf.length ∧ src + n ≤ buf.length ∧ (dst + n ≤ src ∨ src + n ≤ dst) then
    some (writeAt buf dst ((buf.drop src).take n))
  else none

/-- A `memcpy` that copies byte by byte from the lowest address upwards; `none` when
a byte outside the buffer is touched. -/
def memcpyAscending : List Char → Nat → Nat → Nat → Option (List Char)
  | buf, _, _, 0 => some buf
  | buf, dst, src, n + 1 =>
    match buf.get? src with
    | none => none
    | some c =>
      if dst < buf.length then memcpyAscending (buf.set dst c) (dst + 1) (src + 1) n
      else none

/-- A `memcpy` that behaves as `memmove`: the source bytes are read before any byte
is written; `none` when a region leaves the buffer. -/
def memcpyMove (buf : List Char) (dst src n : Nat) : Option (List Char) :=
  if dst + n ≤ buf.length ∧ src + n ≤ buf.length then
    some (writeAt buf dst ((buf.drop src).take n))
  else none

/-- The loop of `timeFormatImpl` that replaces `%z`:
`for (size_t i=0; i<len-1; i++) if (format_str[i]=='%' && format_str[i+1]=='z') { ... }`
with `size_t` 32 bits wide.  A read or write outside the buffer gives `none`.  Every
iteration reads `format_str[i]` with `i` one more than before, so 65 units of fuel are
never used up. -/
def substLoop (memcpy : List Char → Nat → Nat → Nat → Option (List Char)) (tz : List Char) :
    Nat → Nat → Nat → List Char → Option (List Char)
  | 0, _, _, _ => none
  | fuel + 1, i, len, buf =>
    if i < sub32 len 1 then
      match buf.get? i with
      | none => none
      | some c0 =>
        if c0 = '%' then
          match buf.get? (i + 1) with
          | none => none
          | some c1 =>
            if c1 = 'z' then
              match memcpy buf (i + tz.length) (i + 2) (sub32 (sub32 len i) 1) with
              | none => none
              | some buf1 =>
                if i + tz.length ≤ buf1.length then
                  match strlen (writeAt buf1 i tz) with
                  | none => none
                  | some len2 => substLoop memcpy tz fuel (i + 1) len2 (writeAt buf1 i tz)
                else none
            else substLoop memcpy tz fuel (i + 1) len buf
        else substLoop memcpy tz fuel (i + 1) len buf
    else some buf

/-- The format string that `timeFormatImpl(calendar_time, format, time_zone)` hands to
`strftime`: the C string in `format_str` when the substitution loop has ended. -/
def formatStrOf (memcpy : List Char → Nat → Nat → Nat → Option (List Char))
    (format : List Char) (time_zone : Int) : Option (List Char) :=
  match strlen (initFormatStr format) with
  | none => none
  | some len =>
    match substLoop memcpy (timeZoneStr time_zone) 65 0 len (initFormatStr format) with
    | none => none
    | some buf => some (buf.takeWhile (fun c => c ≠ NUL))

/-- The pattern with every `%z` replaced by `tz`, scanning from the left, in the
words of the specification. -/
def replaceZ (tz : List Char) : List Char → List Char
  | [] => []
  | [c] => [c]
  | c0 :: c1 :: rest =>
    if c0 = '%' ∧ c1 = 'z' then tz ++ replaceZ tz rest
    else c0 :: replaceZ tz (c1 :: rest)

/-- `const char* TIME_FORMAT_ISO8601_FULL = "%Y-%m-%dT%H:%M:%S%z";` -/
def TIME_FORMAT_ISO8601_FULL : List Char := "%Y-%m-%dT%H:%M:%S%z".toList

/-! ## Reference Gregorian calendar

An independent description of the civil calendar: the leap rule on the absolute year,
the length of each month, and the date of day number `n` obtained by stepping `n`
times from 1970-01-01 to the following day. -/

/-- Gregorian leap rule on the absolute calendar year. -/
def isLeapGregorian (y : Nat) : Bool :=
  y % 4 == 0 && (y % 100 != 0 || y % 400 == 0)

/-- Number of days of month `m` (1 is January) in calendar year `y`. -/
def daysInMonth (y m : Nat) : Nat :=
  if m = 2 then (if isLeapGregorian y then 29 else 28)
  else if m = 4 ∨ m = 6 ∨ m = 9 ∨ m = 11 then 30
  else 31

/-- The civil date `(year, month, day)` that follows a given one. -/
def nextDay (c : Nat × Nat × Nat) : Nat × Nat × Nat :=
  if c.2.2 < daysInMonth c.1 c.2.1 then (c.1, c.2.1, c.2.2 + 1)
  else if c.2.1 < 12 then (c.1, c.2.1 + 1, 1)
  else (c.1 + 1, 1, 1)

/-- The civil date `(year, month, day)` of day number `n`, day 0 being 1970-01-01. -/
def civilFromDays : Nat → Nat × Nat × Nat
  | 0 => (1970, 1, 1)
  | n + 1 => nextDay (civilFromDays n)

/-! ## Auxiliary calendar quantities used in the proofs -/

/-- Length in days of the year with offset `y`, as the year walk adds it. -/
def ylen (y : Nat) : Nat := if LEAP_YEAR (y : Int) then 366 else 365

/-- Number of days from 1970-01-01 to January 1st of the year with offset `y`. -/
def cum : Nat → Nat
  | 0 => 0
  | y + 1 => cum y + ylen y

/-- Number of leap years among the `n` year offsets starting at `i`. -/
def leapsFrom : Nat → Nat → Nat
  | 0, _ => 0
  | n + 1, i => (if LEAP_YEAR (i : Int) then 1 else 0) + leapsFrom n (i + 1)

/-- Length of month `mo` (0 is January) in a leap or common year. -/
def mlen (leap : Bool) (mo : Nat) : Nat :=
  if mo = 1 then (if leap then 29 else 28) else monthDays.getD mo 0

/-- Days of the year before month `mo` (0 is January). -/
def dbm (leap : Bool) : Nat → Nat
  | 0 => 0
  | mo + 1 => dbm leap mo + mlen leap mo

/-- The month walk with the leap flag of the year as a parameter. -/
def monthWalk (leap : Bool) : Nat → Nat → Nat → Nat × Nat
  | 0, month, time => (month, time)
  | n + 1, month, time =>
    if month < 12 then
      if time ≥ mlen leap month then monthWalk leap n (month + 1) (time - mlen leap month)
      else (month, time)
    else (month, time)

/-- The year offset whose year contains day number `d`. -/
def yearOf (d : Nat) : Nat := Nat.findGreatest (fun y => cum y ≤ d) 136

/-- The date `(year, month, day)` that the year walk and the month walk assign to day
number `d`. -/
def dateOf (d : Nat) : Nat × Nat × Nat :=
  (1970 + yearOf d,
    (monthWalk (LEAP_YEAR (yearOf d : Int)) 12 0 (d - cum (yearOf d))).1 + 1,
    (monthWalk (LEAP_YEAR (yearOf d : Int)) 12 0 (d - cum (yearOf d))).2 + 1)

/-- The calendar fields that `breakTime` computes, in closed form. -/
def brokenDown (t : Nat) (tme : tm) : tm :=
  let d := t / 86400
  let Y := yearOf d
  let r := monthWalk (LEAP_YEAR (Y : Int)) 12 0 (d - cum Y)
  { tme with
    tm_sec := ((t % 60 : Nat) : Int)
    tm_min := ((t / 60 % 60 : Nat) : Int)
    tm_hour := ((t / 3600 % 24 : Nat) : Int)
    tm_wday := (((d + 4) % 7 + 1 : Nat) : Int)
    tm_year := (Y : Int)
    tm_mon := ((r.1 : Int) + 1)
    tm_mday := ((r.2 + 1 : Nat) : Int) }

/-! ## Valid instants and example inputs -/

/-- A valid calendar instant in the words of the specification: `tm_year` in 0..135,
`tm_mon` in 1..12, `tm_mday` from 1 to the length of that month in year
`1970 + tm_year`, `tm_hour` in 0..23, `tm_min` in 0..59, `tm_sec` in 0..59. -/
def ValidInstant (b : tm) : Prop :=
  0 ≤ b.tm_year ∧ b.tm_year ≤ 135 ∧ 1 ≤ b.tm_mon ∧ b.tm_mon ≤ 12 ∧
  1 ≤ b.tm_mday ∧ b.tm_mday ≤ (daysInMonth (1970 + b.tm_year).toNat b.tm_mon.toNat : Int) ∧
  0 ≤ b.tm_hour ∧ b.tm_hour ≤ 23 ∧ 0 ≤ b.tm_min ∧ b.tm_min ≤ 59 ∧
  0 ≤ b.tm_sec ∧ b.tm_sec ≤ 59

/-- An example of a valid instant: Tuesday 2000-02-29, 12:34:56. -/
def exampleInstant : tm := ⟨56, 34, 12, 29, 2, 30, 3, 0, 0⟩

/-- Another valid instant: 2105-12-31, 23:59:59, the last second of the last year
that `ValidInstant` admits. -/
def exampleInstantLast : tm := ⟨59, 59, 23, 31, 12, 135, 0, 0, 0⟩

/-- A pattern of 60 characters, 58 letters and a final `%z`, whose expansion with a
six-character time zone string has 64 characters. -/
def examplePatternOverflow : List Char := List.replicate 58 'a' ++ "%z".toList

/-! ## Lemmas on the year walk -/

theorem ylen_ge (y : Nat) : 365 ≤ ylen y := by
  unfold ylen; split <;> omega

theorem ylen_le (y : Nat) : ylen y ≤ 366 := by
  unfold ylen; split <;> omega

theorem cum_succ (y : Nat) : cum (y + 1) = cum y + ylen y := rfl

theorem cum_mono_add (y n : Nat) : cum y ≤ cum (y + n) := by
  induction n with
  | zero => simp
  | succ n ih =>
    have h := cum_succ (y + n)
    have : y + (n + 1) = y + n + 1 := by omega
    rw [this, h]; omega

theorem cum_mono {a b : Nat} (h : a ≤ b) : cum a ≤ cum b := by
  obtain ⟨n, rfl⟩ := Nat.exists_eq_add_of_le h
  exact cum_mono_add a n

theorem cum_ge (y : Nat) : 365 * y ≤ cum y := by
  induction y with
  | zero => simp [cum]
  | succ y ih => have := ylen_ge y; rw [cum_succ]; omega

theorem cum_137 : cum 137 = 50038 := by decide!

theorem cum_136 : cum 136 = 49673 := by decide!

theorem yearLoop_spec (n : Nat) : ∀ (fuel y time : Nat), n + 1 ≤ fuel → y + n ≤ 255 →
    cum (y + n) ≤ time → time < cum (y + n + 1) → cum (y + n + 1) < 4294967296 →
    yearLoop fuel time y (cum y) = some (y + n, cum (y + n + 1)) := by
  induction n with
  | zero =>
    intro fuel y time hf hy h1 h2 h3
    obtain ⟨f, rfl⟩ : ∃ f, fuel = f + 1 := ⟨fuel - 1, by omega⟩
    have hd : add32 (cum y) (if LEAP_YEAR (y : Int) then 366 else 365) = cum (y + 1) := by
      have : cum (y + 1) = cum y + (if LEAP_YEAR (y : Int) then 366 else 365) := rfl
      simp only [add32]; rw [← this]
      simp only [Nat.add_zero] at h3
      exact Nat.mod_eq_of_lt h3
    simp only [yearLoop, hd]
    simp only [Nat.add_zero] at h2 ⊢
    rw [if_neg (by omega)]
  | succ n ih =>
    intro fuel y time hf hy h1 h2 h3
    obtain ⟨f, rfl⟩ : ∃ f, fuel = f + 1 := ⟨fuel - 1, by omega⟩
    have e1 : y + (n + 1) = (y + 1) + n := by omega
    have hm : cum (y + 1) ≤ cum (y + (n + 1)) := by rw [e1]; exact cum_mono_add (y + 1) n
    have hd : add32 (cum y) (if LEAP_YEAR (y : Int) then 366 else 365) = cum (y + 1) := by
      have : cum (y + 1) = cum y + (if LEAP_YEAR (y : Int) then 366 else 365) := rfl
      simp only [add32]; rw [← this]
      exact Nat.mod_eq_of_lt (by omega)
    simp only [yearLoop, hd]
    rw [if_pos (by omega)]
    have hy1 : (y + 1) % 256 = y + 1 := Nat.mod_eq_of_lt (by omega)
    rw [hy1, e1]
    apply ih f (y + 1) time (by omega) (by omega)
    · rw [← e1]; exact h1
    · rw [← e1]; exact h2
    · rw [← e1]; exact h3

theorem yearOf_le (d : Nat) : yearOf d ≤ 136 := Nat.findGreatest_le 136

theorem yearOf_lower (d : Nat) : cum (yearOf d) ≤ d := by
  have h : (fun y => cum y ≤ d) (Nat.findGreatest (fun y => cum y ≤ d) 136) :=
    Nat.findGreatest_spec (P := fun y => cum y ≤ d) (Nat.zero_le 136) (by simp [cum])
  exact h

theorem yearOf_upper (d : Nat) (hd : d ≤ 49710) : d < cum (yearOf d + 1) := by
  by_contra hc
  have hc1 : cum (yearOf d + 1) ≤ d := by omega
  rcases Nat.lt_or_ge (yearOf d) 136 with h | h
  · have := Nat.le_findGreatest (P := fun y => cum y ≤ d) (show yearOf d + 1 ≤ 136 by omega) hc1
    unfold yearOf at *
    omega
  · have h136 : yearOf d = 136 := le_antisymm (yearOf_le d) h
    rw [h136] at hc1
    have h137 : cum (136 + 1) = 50038 := cum_137
    omega

theorem yearLoop_days (d : Nat) (hd : d ≤ 49710) :
    yearLoop yearFuel d 0 0 = some (yearOf d, cum (yearOf d + 1)) := by
  have h := yearLoop_spec (yearOf d) yearFuel 0 d
    (by have := yearOf_le d; unfold yearFuel; omega)
    (by have := yearOf_le d; omega)
    (by rw [Nat.zero_add]; exact yearOf_lower d)
    (by rw [Nat.zero_add]; exact yearOf_upper d hd)
    (by
      rw [Nat.zero_add]
      have h1 : cum (yearOf d + 1) ≤ cum 137 := cum_mono (by have := yearOf_le d; omega)
      have := cum_137
      omega)
  simp only [Nat.zero_add] at h
  exact h

/-! ## Lemmas on the month walk -/

theorem monthLoop_eq_walk (year : Nat) (n : Nat) : ∀ (month time : Nat),
    monthLoop year n month time = monthWalk (LEAP_YEAR (year : Int)) n month time := by
  induction n with
  | zero => intro month time; rfl
  | succ n ih =>
    intro month time
    simp only [monthLoop, monthWalk, mlen, ih]

theorem monthWalk_facts : ∀ (leap : Bool), ∀ doy < 366, doy < (if leap then 366 else 365) →
    (monthWalk leap 12 0 doy).1 < 12 ∧
    (monthWalk leap 12 0 doy).2 < mlen leap (monthWalk leap 12 0 doy).1 ∧
    dbm leap (monthWalk leap 12 0 doy).1 + (monthWalk leap 12 0 doy).2 = doy := by
  decide!

theorem mlen_le (leap : Bool) (mo : Nat) : mlen leap mo ≤ 31 := by
  by_cases h : mo < 12
  · revert leap mo; decide
  · have : monthDays.getD mo 0 = 0 := by
      unfold monthDays
      exact List.getD_eq_default _ _ (by simp; omega)
    unfold mlen
    rw [if_neg (by omega), this]; omega

theorem doy_lt (d : Nat) (hd : d ≤ 49710) : d - cum (yearOf d) < ylen (yearOf d) := by
  have h1 := yearOf_lower d
  have h2 := yearOf_upper d hd
  rw [cum_succ] at h2
  omega

theorem monthWalk_doy (d : Nat) (hd : d ≤ 49710) :
    (monthWalk (LEAP_YEAR (yearOf d : Int)) 12 0 (d - cum (yearOf d))).1 < 12 ∧
    (monthWalk (LEAP_YEAR (yearOf d : Int)) 12 0 (d - cum (yearOf d))).2 <
      mlen (LEAP_YEAR (yearOf d : Int))
        (monthWalk (LEAP_YEAR (yearOf d : Int)) 12 0 (d - cum (yearOf d))).1 ∧
    dbm (LEAP_YEAR (yearOf d : Int))
        (monthWalk (LEAP_YEAR (yearOf d : Int)) 12 0 (d - cum (yearOf d))).1 +
      (monthWalk (LEAP_YEAR (yearOf d : Int)) 12 0 (d - cum (yearOf d))).2 = d - cum (yearOf d) := by
  have h := doy_lt d hd
  have hl := ylen_le (yearOf d)
  apply monthWalk_facts _ _ (by omega)
  unfold ylen at h
  exact h

theorem sub32_add_cancel (c L : Nat) (h : c + L < 4294967296) : sub32 (c + L) L = c := by
  unfold sub32 u32
  omega

theorem sub32_of_le (a b : Nat) (h : b ≤ a) (ha : a < 4294967296) : sub32 a b = a - b := by
  unfold sub32 u32
  omega

theorem add32_of_lt (a b : Nat) (h : a + b < 4294967296) : add32 a b = a + b := by
  unfold add32
  exact Nat.mod_eq_of_lt h

theorem breakTime_of_yearLoop (t : Nat) (tme : tm) (Y c : Nat)
    (h : yearLoop yearFuel (t % 4294967296 / 60 / 60 / 24) 0 0 = some (Y, c)) :
    breakTime t tme = some { tme with
      tm_sec := ((t % 4294967296 % 60 : Nat) : Int)
      tm_min := ((t % 4294967296 / 60 % 60 : Nat) : Int)
      tm_hour := ((t % 4294967296 / 60 / 60 % 24 : Nat) : Int)
      tm_wday := ((add32 (t % 4294967296 / 60 / 60 / 24) 4 % 7 + 1 : Nat) : Int)
      tm_year := (Y : Int)
      tm_mon := (((monthLoop Y 12 0 (sub32 (t % 4294967296 / 60 / 60 / 24)
        (sub32 c (if LEAP_YEAR (Y : Int) then 366 else 365)))).1 : Int) + 1)
      tm_mday := ((add32 (monthLoop Y 12 0 (sub32 (t % 4294967296 / 60 / 60 / 24)
        (sub32 c (if LEAP_YEAR (Y : Int) then 366 else 365)))).2 1 : Nat) : Int) } := by
  unfold breakTime
  simp only [h]

theorem breakTime_eq (t : Nat) (ht : t < 4294967296) (tme : tm) :
    breakTime t tme = some (brokenDown t tme) := by
  have hd : t / 86400 ≤ 49710 := by omega
  have e3 : t % 4294967296 / 60 / 60 / 24 = t / 86400 := by
    rw [Nat.mod_eq_of_lt ht]; omega
  have e2 : t % 4294967296 / 60 / 60 % 24 = t / 3600 % 24 := by
    rw [Nat.mod_eq_of_lt ht]; omega
  have e1 : t % 4294967296 / 60 % 60 = t / 60 % 60 := by
    rw [Nat.mod_eq_of_lt ht]
  have e0 : t % 4294967296 % 60 = t % 60 := by
    rw [Nat.mod_eq_of_lt ht]
  have hyl := yearLoop_days (t / 86400) hd
  rw [← e3] at hyl
  rw [breakTime_of_yearLoop t tme _ _ hyl, e0, e1, e2, e3]
  clear hyl e0 e1 e2 e3
  generalize hdd : t / 86400 = d at *
  have hY := yearOf_le d
  have hlo := yearOf_lower d
  have hmw := monthWalk_doy d hd
  have hcb : cum (yearOf d + 1) ≤ 50038 := by
    have h1 : cum (yearOf d + 1) ≤ cum 137 := cum_mono (by omega)
    rw [cum_137] at h1
    exact h1
  generalize hYY : yearOf d = Y at *
  have hc : cum (Y + 1) = cum Y + (if LEAP_YEAR (Y : Int) then 366 else 365) := rfl
  have hdays : sub32 (cum (Y + 1)) (if LEAP_YEAR (Y : Int) then 366 else 365) = cum Y := by
    rw [hc]
    exact sub32_add_cancel _ _ (by rw [← hc]; omega)
  have htime : sub32 d (cum Y) = d - cum Y := sub32_of_le _ _ hlo (by omega)
  have hw : add32 d 4 = d + 4 := add32_of_lt _ _ (by omega)
  rw [hdays, htime, hw, monthLoop_eq_walk]
  have hml := mlen_le (LEAP_YEAR (Y : Int)) (monthWalk (LEAP_YEAR (Y : Int)) 12 0 (d - cum Y)).1
  rw [add32_of_lt _ 1 (by omega)]
  simp only [brokenDown, hdd, hYY]

/-! ## Lemmas on `makeTime` -/

theorem SECS_PER_DAY_eq : SECS_PER_DAY = 86400 := by decide

theorem SECS_PER_HOUR_eq : SECS_PER_HOUR = 3600 := by decide

theorem SECS_PER_MIN_eq : SECS_PER_MIN = 60 := by decide

theorem add32_mod_left (a b : Nat) : add32 (a % 4294967296) b = (a + b) % 4294967296 := by
  unfold add32
  omega

theorem u32_natCast (n : Nat) : u32 (n : Int) = n % 4294967296 := by
  unfold u32
  omega

theorem leapLoop_eq (n : Nat) : ∀ (i S : Nat),
    leapLoop n (i : Int) (S % 4294967296) = (S + 86400 * leapsFrom n i) % 4294967296 := by
  induction n with
  | zero => intro i S; simp [leapLoop, leapsFrom]
  | succ n ih =>
    intro i S
    have hi : ((i : Int) + 1) = ((i + 1 : Nat) : Int) := by push_cast; rfl
    simp only [leapLoop, leapsFrom, hi]
    cases hl : LEAP_YEAR (i : Int)
    · simp only [Bool.false_eq_true, if_false]
      rw [ih]
      simp
    · simp only [if_true]
      have h1 : add32 (S % 4294967296) SECS_PER_DAY = (S + 86400) % 4294967296 := by
        rw [add32_mod_left, SECS_PER_DAY_eq]
      rw [h1, ih]
      omega

theorem cum_eq_leapsFrom (n : Nat) : ∀ i : Nat, cum (i + n) = cum i + 365 * n + leapsFrom n i := by
  induction n with
  | zero => intro i; simp [leapsFrom]
  | succ n ih =>
    intro i
    have e : i + (n + 1) = (i + 1) + n := by omega
    rw [e, ih (i + 1), cum_succ]
    simp only [leapsFrom, ylen]
    split <;> omega

theorem monthDays_get (leap : Bool) (j : Nat) (hj : j < 12) (h : ¬ (j + 1 = 2 ∧ leap = true)) :
    monthDays.get? j = some (mlen leap j) := by
  revert leap j
  decide

theorem mlen_feb_leap : mlen true 1 = 29 := by decide

theorem monthSecLoop_eq (leap : Bool) (n : Nat) : ∀ (j S : Nat), j + n ≤ 12 →
    monthSecLoop leap n (j + 1) ((S + 86400 * dbm leap j) % 4294967296) =
      some ((S + 86400 * dbm leap (j + n)) % 4294967296) := by
  induction n with
  | zero => intro j S _; simp [monthSecLoop]
  | succ n ih =>
    intro j S hj
    have e : j + (n + 1) = (j + 1) + n := by omega
    have hd : dbm leap (j + 1) = dbm leap j + mlen leap j := rfl
    by_cases hc : j + 1 = 2 ∧ leap = true
    · have hj1 : j = 1 := by omega
      have hm : mlen leap j = 29 := by rw [hj1, hc.2]; exact mlen_feb_leap
      have hs : add32 ((S + 86400 * dbm leap j) % 4294967296) (SECS_PER_DAY * 29) =
          (S + 86400 * dbm leap (j + 1)) % 4294967296 := by
        rw [add32_mod_left, hd, hm, SECS_PER_DAY_eq]
        omega
      simp only [monthSecLoop, if_pos hc, hs]
      rw [e]
      exact ih (j + 1) S (by omega)
    · have hg := monthDays_get leap j (by omega) hc
      have hs : add32 ((S + 86400 * dbm leap j) % 4294967296) (SECS_PER_DAY * mlen leap j) =
          (S + 86400 * dbm leap (j + 1)) % 4294967296 := by
        rw [add32_mod_left, hd, SECS_PER_DAY_eq]
        omega
      simp only [monthSecLoop, if_neg hc, Nat.add_sub_cancel, hg, hs]
      rw [e]
      exact ih (j + 1) S (by omega)

/-- The value of `makeTime` on a structure whose fields are natural numbers and whose
month lies in 1..12. -/
theorem makeTime_nat (b : tm) (Y mo dd h mi s : Nat) (hmo : mo < 12)
    (hY : b.tm_year = (Y : Int)) (hM : b.tm_mon = (mo : Int) + 1)
    (hD : b.tm_mday = ((dd + 1 : Nat) : Int)) (hH : b.tm_hour = (h : Int))
    (hMi : b.tm_min = (mi : Int)) (hS : b.tm_sec = (s : Int)) :
    makeTime b = some (((cum Y + dbm (LEAP_YEAR (Y : Int)) mo + dd) * 86400 +
      h * 3600 + mi * 60 + s) % 4294967296) := by
  unfold makeTime
  rw [hY, hM, hD, hH, hMi, hS]
  have h0 : u32 ((Y : Int) * ((SECS_PER_DAY : Int) * 365)) = (Y * 31536000) % 4294967296 := by
    have : (Y : Int) * ((SECS_PER_DAY : Int) * 365) = ((Y * 31536000 : Nat) : Int) := by
      rw [SECS_PER_DAY_eq]; push_cast; ring
    rw [this, u32_natCast]
  have h1 : ((Y : Int)).toNat = Y := Int.toNat_natCast Y
  have h2 : ((mo : Int) + 1 - 1).toNat = mo := by omega
  have hcum : cum Y = 365 * Y + leapsFrom Y 0 := by
    have := cum_eq_leapsFrom Y 0
    simp only [Nat.zero_add] at this
    rw [this]; simp [cum]
  have h3 : leapLoop Y 0 (Y * 31536000 % 4294967296) =
      (cum Y * 86400 + 86400 * dbm (LEAP_YEAR (Y : Int)) 0) % 4294967296 := by
    have := leapLoop_eq Y 0 (Y * 31536000)
    simp only [Nat.cast_zero] at this
    rw [this, hcum]
    simp only [dbm]
    omega
  have h4 := monthSecLoop_eq (LEAP_YEAR (Y : Int)) mo 0 (cum Y * 86400) (by omega)
  simp only [Nat.zero_add] at h4
  have h5 : u32 ((((dd + 1 : Nat) : Int) - 1) * (SECS_PER_DAY : Int)) = (dd * 86400) % 4294967296 := by
    have : (((dd + 1 : Nat) : Int) - 1) * (SECS_PER_DAY : Int) = ((dd * 86400 : Nat) : Int) := by
      rw [SECS_PER_DAY_eq]; push_cast; ring
    rw [this, u32_natCast]
  have h6 : u32 ((h : Int) * (SECS_PER_HOUR : Int)) = (h * 3600) % 4294967296 := by
    have : (h : Int) * (SECS_PER_HOUR : Int) = ((h * 3600 : Nat) : Int) := by
      rw [SECS_PER_HOUR_eq]; push_cast; ring
    rw [this, u32_natCast]
  have h7 : u32 ((mi : Int) * (SECS_PER_MIN : Int)) = (mi * 60) % 4294967296 := by
    have : (mi : Int) * (SECS_PER_MIN : Int) = ((mi * 60 : Nat) : Int) := by
      rw [SECS_PER_MIN_eq]; push_cast; ring
    rw [this, u32_natCast]
  simp only [h0, h1, h2, h3, h4, h5, h6, h7, u32_natCast, add32, Option.some.injEq]
  omega

/-! ## C1: round trip -/

theorem time_split (t : Nat) :
    t / 86400 * 86400 + t / 3600 % 24 * 3600 + t / 60 % 60 * 60 + t % 60 = t := by
  have h1 : t / 3600 = t / 60 / 60 := by rw [Nat.div_div_eq_div_mul]
  have h2 : t / 86400 = t / 60 / 60 / 24 := by
    rw [Nat.div_div_eq_div_mul, Nat.div_div_eq_div_mul]
  rw [h1, h2]
  omega

/-- C1. Round trip: for every timestamp `t` with `0 ≤ t < 2^32`, `breakTime` returns a
broken-down time, and `makeTime` of that broken-down time is exactly `t`. -/
theorem C1_makeTime_breakTime (t : Nat) (ht : t < 4294967296) (tme : tm) :
    (breakTime t tme).bind makeTime = some t := by
  rw [breakTime_eq t ht tme, Option.some_bind]
  have hd : t / 86400 ≤ 49710 := by omega
  have hmw := monthWalk_doy (t / 86400) hd
  have hlo := yearOf_lower (t / 86400)
  rw [makeTime_nat (brokenDown t tme) (yearOf (t / 86400))
    (monthWalk (LEAP_YEAR (yearOf (t / 86400) : Int)) 12 0 (t / 86400 - cum (yearOf (t / 86400)))).1
    (monthWalk (LEAP_YEAR (yearOf (t / 86400) : Int)) 12 0 (t / 86400 - cum (yearOf (t / 86400)))).2
    (t / 3600 % 24) (t / 60 % 60) (t % 60) hmw.1 rfl rfl rfl rfl rfl rfl]
  rw [Option.some.injEq]
  have hs := time_split t
  have hsum : cum (yearOf (t / 86400)) +
      dbm (LEAP_YEAR (yearOf (t / 86400) : Int))
        (monthWalk (LEAP_YEAR (yearOf (t / 86400) : Int)) 12 0
          (t / 86400 - cum (yearOf (t / 86400)))).1 +
      (monthWalk (LEAP_YEAR (yearOf (t / 86400) : Int)) 12 0
          (t / 86400 - cum (yearOf (t / 86400)))).2 = t / 86400 := by
    omega
  rw [hsum, hs]
  exact Nat.mod_eq_of_lt ht

/-- C1, instance: the round trip at the last representable second. -/
theorem C1_makeTime_breakTime_witness :
    4294967295 < 4294967296 ∧
      (breakTime 4294967295 ⟨0, 0, 0, 0, 0, 0, 0, 0, 0⟩).bind makeTime = some 4294967295 :=
  ⟨by decide, C1_makeTime_breakTime 4294967295 (by decide) ⟨0, 0, 0, 0, 0, 0, 0, 0, 0⟩⟩

/-! ## C2: agreement with the reference calendar -/

theorem yearOf_unique (d Y : Nat) (hY : Y ≤ 136) (h1 : cum Y ≤ d) (h2 : d < cum (Y + 1)) :
    yearOf d = Y := by
  have hle : Y ≤ yearOf d := Nat.le_findGreatest (P := fun y => cum y ≤ d) hY h1
  rcases Nat.lt_or_ge Y (yearOf d) with h | h
  · have := cum_mono (show Y + 1 ≤ yearOf d by omega)
    have := yearOf_lower d
    omega
  · omega

theorem LEAP_YEAR_eq (Y : Nat) : LEAP_YEAR (Y : Int) = isLeapGregorian (1970 + Y) := by
  have h4 : ((1970 + (Y : Int)) % 4 == 0) = ((1970 + Y) % 4 == 0) := by
    rw [Bool.eq_iff_iff]; simp only [beq_iff_eq]; omega
  have h100 : ((1970 + (Y : Int)) % 100 != 0) = ((1970 + Y) % 100 != 0) := by
    rw [Bool.eq_iff_iff]; simp only [bne_iff_ne, ne_eq]; omega
  have h400 : ((1970 + (Y : Int)) % 400 == 0) = ((1970 + Y) % 400 == 0) := by
    rw [Bool.eq_iff_iff]; simp only [beq_iff_eq]; omega
  have hpos : decide (1970 + (Y : Int) > 0) = true := by
    rw [decide_eq_true_eq]; omega
  unfold LEAP_YEAR isLeapGregorian
  rw [h4, h100, h400, hpos, Bool.true_and]

theorem daysInMonth_eq (y : Nat) : ∀ mo < 12,
    daysInMonth y (mo + 1) = mlen (isLeapGregorian y) mo := by
  intro mo hmo
  interval_cases mo <;> cases h : isLeapGregorian y <;> simp [daysInMonth, mlen, monthDays, h]

theorem monthWalk_step : ∀ (leap : Bool), ∀ doy < 366, doy + 1 < (if leap then 366 else 365) →
    monthWalk leap 12 0 (doy + 1) =
      (if (monthWalk leap 12 0 doy).2 + 1 < mlen leap (monthWalk leap 12 0 doy).1
        then ((monthWalk leap 12 0 doy).1, (monthWalk leap 12 0 doy).2 + 1)
        else ((monthWalk leap 12 0 doy).1 + 1, 0)) ∧
      ((monthWalk leap 12 0 doy).2 + 1 < mlen leap (monthWalk leap 12 0 doy).1 ∨
        (monthWalk leap 12 0 doy).1 + 1 < 12) := by
  decide!

theorem monthWalk_last : ∀ (leap : Bool),
    monthWalk leap 12 0 ((if leap then 366 else 365) - 1) = (11, 30) := by
  decide

theorem monthWalk_zero (leap : Bool) : monthWalk leap 12 0 0 = (0, 0) := by
  revert leap; decide

theorem nextDay_same_year (y : Nat) (leap : Bool) (hleap : isLeapGregorian y = leap)
    (doy : Nat) (h366 : doy < 366) (h : doy + 1 < (if leap then 366 else 365)) :
    nextDay (y, (monthWalk leap 12 0 doy).1 + 1, (monthWalk leap 12 0 doy).2 + 1) =
      (y, (monthWalk leap 12 0 (doy + 1)).1 + 1, (monthWalk leap 12 0 (doy + 1)).2 + 1) := by
  have hf := monthWalk_facts leap doy h366 (by split at h <;> split <;> omega)
  obtain ⟨hs, hor⟩ := monthWalk_step leap doy h366 h
  have hdim := daysInMonth_eq y _ hf.1
  rw [hleap] at hdim
  rw [hs]
  unfold nextDay
  simp only [hdim]
  by_cases hlt : (monthWalk leap 12 0 doy).2 + 1 < mlen leap (monthWalk leap 12 0 doy).1
  · rw [if_pos hlt, if_pos hlt]
  · rw [if_neg hlt, if_neg hlt]
    have h12 : (monthWalk leap 12 0 doy).1 + 1 < 12 := by
      rcases hor with h1 | h1
      · exact absurd h1 hlt
      · exact h1
    rw [if_pos h12]

theorem nextDay_new_year (Y : Nat) :
    nextDay (1970 + Y, 11 + 1, 30 + 1) = (1970 + (Y + 1), 0 + 1, 0 + 1) := by
  unfold nextDay daysInMonth
  simp
  omega

theorem nextDay_dateOf (d : Nat) (hd : d + 1 ≤ 49710) : nextDay (dateOf d) = dateOf (d + 1) := by
  have hY := yearOf_le d
  have hlo := yearOf_lower d
  have hup := yearOf_upper d (by omega)
  have hdoy := doy_lt d (by omega)
  have hyl := ylen_le (yearOf d)
  have hleap := (LEAP_YEAR_eq (yearOf d)).symm
  rcases Nat.lt_or_ge (d - cum (yearOf d) + 1) (ylen (yearOf d)) with h | h
  · have hy1 : yearOf (d + 1) = yearOf d :=
      yearOf_unique (d + 1) (yearOf d) hY (by omega) (by rw [cum_succ]; omega)
    have hsub : d + 1 - cum (yearOf d) = d - cum (yearOf d) + 1 := by omega
    unfold dateOf
    rw [hy1, hsub]
    exact nextDay_same_year _ _ hleap _ (by omega) (by unfold ylen at h; exact h)
  · have hlast : d - cum (yearOf d) = (if LEAP_YEAR (yearOf d : Int) then 366 else 365) - 1 := by
      unfold ylen at h hdoy
      omega
    have hc1 : cum (yearOf d + 1) = d + 1 := by rw [cum_succ]; omega
    have hY1 : yearOf d + 1 ≤ 136 := by
      by_contra hc
      have h136 : yearOf d = 136 := by omega
      rw [h136] at hc1
      have h137 : cum (136 + 1) = 50038 := cum_137
      omega
    have hy1 : yearOf (d + 1) = yearOf d + 1 :=
      yearOf_unique (d + 1) (yearOf d + 1) hY1 (by omega)
        (by rw [cum_succ (yearOf d + 1)]; have := ylen_ge (yearOf d + 1); omega)
    unfold dateOf
    rw [hy1, hlast, monthWalk_last, hc1, Nat.sub_self, monthWalk_zero]
    exact nextDay_new_year _

theorem yearOf_zero : yearOf 0 = 0 :=
  yearOf_unique 0 0 (by omega) (by simp [cum]) (by decide)

theorem civilFromDays_eq (d : Nat) : d ≤ 49710 → civilFromDays d = dateOf d := by
  induction d with
  | zero =>
    intro _
    unfold dateOf
    rw [yearOf_zero]
    rfl
  | succ d ih =>
    intro hd
    show nextDay (civilFromDays d) = dateOf (d + 1)
    rw [ih (by omega)]
    exact nextDay_dateOf d hd

theorem civilFromDays_y2k : civilFromDays (SECS_YR_2000 / 86400) = (2000, 1, 1) := by
  rw [civilFromDays_eq _ (by decide)]
  decide!

/-- C2. Gregorian correctness of `breakTime`: for every `t` with `0 ≤ t < 2^32` the
call returns a broken-down time with second `t mod 60`, minute `(t/60) mod 60`, hour
`(t/3600) mod 24`, and `(1970 + tm_year, tm_mon, tm_mday)` equal to the civil date
that the reference calendar `civilFromDays` gives to day number `t / 86400`; and
`breakTime SECS_YR_2000` is 2000-01-01 00:00:00. -/
theorem C2_breakTime_gregorian (t : Nat) (ht : t < 4294967296) (tme : tm) :
    (∃ b, breakTime t tme = some b ∧
      b.tm_sec = ((t % 60 : Nat) : Int) ∧
      b.tm_min = ((t / 60 % 60 : Nat) : Int) ∧
      b.tm_hour = ((t / 3600 % 24 : Nat) : Int) ∧
      (1970 + b.tm_year, b.tm_mon, b.tm_mday) =
        (((civilFromDays (t / 86400)).1 : Int), ((civilFromDays (t / 86400)).2.1 : Int),
          ((civilFromDays (t / 86400)).2.2 : Int))) ∧
    (∃ b, breakTime SECS_YR_2000 tme = some b ∧
      1970 + b.tm_year = 2000 ∧ b.tm_mon = 1 ∧ b.tm_mday = 1 ∧
      b.tm_hour = 0 ∧ b.tm_min = 0 ∧ b.tm_sec = 0) := by
  have key : ∀ u : Nat, u < 4294967296 → (1970 + (brokenDown u tme).tm_year,
      (brokenDown u tme).tm_mon, (brokenDown u tme).tm_mday) =
        (((civilFromDays (u / 86400)).1 : Int), ((civilFromDays (u / 86400)).2.1 : Int),
          ((civilFromDays (u / 86400)).2.2 : Int)) := by
    intro u hu
    rw [civilFromDays_eq (u / 86400) (by omega)]
    simp only [brokenDown, dateOf]
    push_cast
    rfl
  constructor
  · exact ⟨brokenDown t tme, breakTime_eq t ht tme, rfl, rfl, rfl, key t ht⟩
  · have h2k : SECS_YR_2000 < 4294967296 := by decide
    have hk := key SECS_YR_2000 h2k
    rw [civilFromDays_y2k] at hk
    simp only [Prod.mk.injEq] at hk
    refine ⟨brokenDown SECS_YR_2000 tme, breakTime_eq _ h2k tme, ?_, ?_, ?_, ?_, ?_, ?_⟩
    · exact hk.1
    · exact hk.2.1
    · exact hk.2.2
    · show (((SECS_YR_2000 / 3600 % 24 : Nat)) : Int) = 0
      decide
    · show (((SECS_YR_2000 / 60 % 60 : Nat)) : Int) = 0
      decide
    · show (((SECS_YR_2000 % 60 : Nat)) : Int) = 0
      decide

/-- C2, instance: the general statement applied to the Y2K constant. -/
theorem C2_breakTime_gregorian_witness :
    SECS_YR_2000 < 4294967296 ∧
    ∃ b, breakTime SECS_YR_2000 ⟨0, 0, 0, 0, 0, 0, 0, 0, 0⟩ = some b ∧
      1970 + b.tm_year = 2000 ∧ b.tm_mon = 1 ∧ b.tm_mday = 1 ∧
      b.tm_hour = 0 ∧ b.tm_min = 0 ∧ b.tm_sec = 0 :=
  ⟨by decide,
    (C2_breakTime_gregorian SECS_YR_2000 (by decide) ⟨0, 0, 0, 0, 0, 0, 0, 0, 0⟩).2⟩

/-! ## C3: year lengths -/

theorem breakTime_year_of_day (d : Nat) (hd : d < 49711) (tme : tm) :
    (breakTime (d * 86400) tme).map tm.tm_year = some ((yearOf d : Nat) : Int) := by
  rw [breakTime_eq (d * 86400) (by omega) tme, Option.map_some']
  have h : d * 86400 / 86400 = d := by omega
  simp only [brokenDown, h]

theorem breakTime_date (t : Nat) (ht : t < 4294967296) (tme : tm) :
    (breakTime t tme).map (fun b => (b.tm_year, b.tm_mon, b.tm_mday)) =
      some (((dateOf (t / 86400)).1 : Int) - 1970, ((dateOf (t / 86400)).2.1 : Int),
        ((dateOf (t / 86400)).2.2 : Int)) := by
  rw [breakTime_eq t ht tme, Option.map_some']
  simp only [brokenDown, dateOf]
  push_cast
  simp

theorem year_days_filter (Y : Nat) (hY : Y ≤ 135) (tme : tm) :
    (Finset.range 49711).filter
      (fun d => (breakTime (d * 86400) tme).map tm.tm_year = some (Y : Int)) =
      Finset.Ico (cum Y) (cum (Y + 1)) := by
  have h136 : cum (Y + 1) ≤ 49673 := by
    have := cum_mono (show Y + 1 ≤ 136 by omega)
    rw [cum_136] at this
    exact this
  ext d
  simp only [Finset.mem_filter, Finset.mem_range, Finset.mem_Ico]
  constructor
  · rintro ⟨hd, hy⟩
    rw [breakTime_year_of_day d hd tme, Option.some.injEq] at hy
    have hyd : yearOf d = Y := by exact_mod_cast hy
    have h1 := yearOf_lower d
    have h2 := yearOf_upper d (by omega)
    rw [hyd] at h1 h2
    exact ⟨h1, h2⟩
  · rintro ⟨h1, h2⟩
    have hd : d < 49711 := by omega
    refine ⟨hd, ?_⟩
    rw [breakTime_year_of_day d hd tme, yearOf_unique d Y (by omega) h1 h2]

/-- C3. Leap-year correctness: for every year offset `Y` with `0 ≤ Y ≤ 135`, the number
of day numbers `d` (those with `d * 86400 < 2^32`, i.e. `d < 49711`) for which
`breakTime (d * 86400)` has `tm_year = Y` is 366 when the absolute year `1970 + Y` is
divisible by 4 and (not divisible by 100 or divisible by 400), and 365 otherwise.
`breakTime` reports 1972-02-29 at `t = 68169600`, 2000-02-29 at `t = 951782400`,
2100-02-28 at `t = 4107456000` and 2100-03-01 one day later at `t = 4107542400`. -/
theorem C3_year_lengths (Y : Nat) (hY : Y ≤ 135) (tme : tm) :
    ((Finset.range 49711).filter
      (fun d => (breakTime (d * 86400) tme).map tm.tm_year = some (Y : Int))).card =
      (if (1970 + Y) % 4 = 0 ∧ ((1970 + Y) % 100 ≠ 0 ∨ (1970 + Y) % 400 = 0)
        then 366 else 365) ∧
    (breakTime 68169600 tme).map (fun b => (b.tm_year, b.tm_mon, b.tm_mday)) =
      some (2, 2, 29) ∧
    (breakTime 951782400 tme).map (fun b => (b.tm_year, b.tm_mon, b.tm_mday)) =
      some (30, 2, 29) ∧
    (breakTime 4107456000 tme).map (fun b => (b.tm_year, b.tm_mon, b.tm_mday)) =
      some (130, 2, 28) ∧
    (breakTime (4107456000 + 86400) tme).map (fun b => (b.tm_year, b.tm_mon, b.tm_mday)) =
      some (130, 3, 1) := by
  refine ⟨?_, ?_, ?_, ?_, ?_⟩
  · rw [year_days_filter Y hY tme, Nat.card_Ico, cum_succ, Nat.add_sub_cancel_left]
    unfold ylen
    rw [LEAP_YEAR_eq]
    unfold isLeapGregorian
    by_cases h4 : (1970 + Y) % 4 = 0 <;> by_cases h100 : (1970 + Y) % 100 = 0 <;>
      by_cases h400 : (1970 + Y) % 400 = 0 <;> simp [h4, h100, h400]
  · rw [breakTime_date _ (by decide) tme]
    have : dateOf (68169600 / 86400) = (1972, 2, 29) := by decide!
    rw [this]; rfl
  · rw [breakTime_date _ (by decide) tme]
    have : dateOf (951782400 / 86400) = (2000, 2, 29) := by decide!
    rw [this]; rfl
  · rw [breakTime_date _ (by decide) tme]
    have : dateOf (4107456000 / 86400) = (2100, 2, 28) := by decide!
    rw [this]; rfl
  · rw [breakTime_date _ (by decide) tme]
    have : dateOf ((4107456000 + 86400) / 86400) = (2100, 3, 1) := by decide!
    rw [this]; rfl

/-- C3, instance: the year 2000 (offset 30) has 366 days, and the listed dates. -/
theorem C3_year_lengths_witness :
    30 ≤ 135 ∧
    ((Finset.range 49711).filter
      (fun d => (breakTime (d * 86400) ⟨0, 0, 0, 0, 0, 0, 0, 0, 0⟩).map tm.tm_year =
        some ((30 : Nat) : Int))).card =
      (if (1970 + 30) % 4 = 0 ∧ ((1970 + 30) % 100 ≠ 0 ∨ (1970 + 30) % 400 = 0)
        then 366 else 365) :=
  ⟨by decide, (C3_year_lengths 30 (by decide) ⟨0, 0, 0, 0, 0, 0, 0, 0, 0⟩).1⟩

/-! ## C4: weekday -/

/-- C4. Weekday: for every `t` with `0 ≤ t < 2^32`, `breakTime t` has
`tm_wday = ((t / 86400 + 4) mod 7) + 1`, a value in 1..7; one day (86400 seconds)
later the weekday is the cyclic successor (`7` is followed by `1`); and
`breakTime 0` has `tm_wday = 5`, a Thursday when 1 is Sunday. -/
theorem C4_weekday (t : Nat) (ht : t < 4294967296) (tme : tm) :
    (∃ b, breakTime t tme = some b ∧
      b.tm_wday = (((t / 86400 + 4) % 7 + 1 : Nat) : Int) ∧
      1 ≤ b.tm_wday ∧ b.tm_wday ≤ 7 ∧
      (t + 86400 < 4294967296 →
        ∃ b1, breakTime (t + 86400) tme = some b1 ∧ b1.tm_wday = b.tm_wday % 7 + 1)) ∧
    (∃ b0, breakTime 0 tme = some b0 ∧ b0.tm_wday = 5) := by
  constructor
  · refine ⟨brokenDown t tme, breakTime_eq t ht tme, rfl, ?_, ?_, ?_⟩
    · show (1 : Int) ≤ (((t / 86400 + 4) % 7 + 1 : Nat) : Int)
      omega
    · show (((t / 86400 + 4) % 7 + 1 : Nat) : Int) ≤ 7
      omega
    · intro h1
      refine ⟨brokenDown (t + 86400) tme, breakTime_eq _ h1 tme, ?_⟩
      show ((((t + 86400) / 86400 + 4) % 7 + 1 : Nat) : Int) =
        (((t / 86400 + 4) % 7 + 1 : Nat) : Int) % 7 + 1
      omega
  · exact ⟨brokenDown 0 tme, breakTime_eq 0 (by decide) tme, rfl⟩

/-- C4, instance: from Saturday 1970-01-03 (`tm_wday = 7`) to Sunday 1970-01-04. -/
theorem C4_weekday_witness :
    172800 < 4294967296 ∧
    ∃ b, breakTime 172800 ⟨0, 0, 0, 0, 0, 0, 0, 0, 0⟩ = some b ∧
      b.tm_wday = (((172800 / 86400 + 4) % 7 + 1 : Nat) : Int) ∧
      1 ≤ b.tm_wday ∧ b.tm_wday ≤ 7 ∧
      (172800 + 86400 < 4294967296 →
        ∃ b1, breakTime (172800 + 86400) ⟨0, 0, 0, 0, 0, 0, 0, 0, 0⟩ = some b1 ∧
          b1.tm_wday = b.tm_wday % 7 + 1) :=
  ⟨by decide, (C4_weekday 172800 (by decide) ⟨0, 0, 0, 0, 0, 0, 0, 0, 0⟩).1⟩

/-! ## C5: field ranges -/

/-- C5. Field ranges: for every `t` with `0 ≤ t < 2^32`, `breakTime t` has `tm_mon` in
1..12 (so 13 is never produced and the month walk stops at an index below 12),
`tm_mday` in `1..L` where `L` is the length of month `tm_mon` of year `1970 + tm_year`
in the reference calendar (28 or 29 for February, never more than 31), `tm_hour` in
0..23, `tm_min` in 0..59 and `tm_sec` in 0..59. -/
theorem C5_field_ranges (t : Nat) (ht : t < 4294967296) (tme : tm) :
    ∃ b, breakTime t tme = some b ∧
      1 ≤ b.tm_mon ∧ b.tm_mon ≤ 12 ∧ b.tm_mon ≠ 13 ∧
      1 ≤ b.tm_mday ∧
      b.tm_mday ≤ (daysInMonth (1970 + b.tm_year).toNat b.tm_mon.toNat : Int) ∧
      (b.tm_mon = 2 →
        daysInMonth (1970 + b.tm_year).toNat b.tm_mon.toNat =
          if isLeapGregorian (1970 + b.tm_year).toNat then 29 else 28) ∧
      daysInMonth (1970 + b.tm_year).toNat b.tm_mon.toNat ≤ 31 ∧
      b.tm_mday ≤ 31 ∧
      0 ≤ b.tm_hour ∧ b.tm_hour ≤ 23 ∧
      0 ≤ b.tm_min ∧ b.tm_min ≤ 59 ∧
      0 ≤ b.tm_sec ∧ b.tm_sec ≤ 59 := by
  have hd : t / 86400 ≤ 49710 := by omega
  obtain ⟨hm, hr, _⟩ := monthWalk_doy (t / 86400) hd
  have hml := mlen_le (LEAP_YEAR (yearOf (t / 86400) : Int))
    (monthWalk (LEAP_YEAR (yearOf (t / 86400) : Int)) 12 0
      (t / 86400 - cum (yearOf (t / 86400)))).1
  have hdim := daysInMonth_eq (1970 + yearOf (t / 86400)) _ hm
  rw [← LEAP_YEAR_eq] at hdim
  have hyear : (1970 + (brokenDown t tme).tm_year).toNat = 1970 + yearOf (t / 86400) := by
    show (1970 + ((yearOf (t / 86400) : Nat) : Int)).toNat = 1970 + yearOf (t / 86400)
    omega
  have hmon : (brokenDown t tme).tm_mon.toNat =
      (monthWalk (LEAP_YEAR (yearOf (t / 86400) : Int)) 12 0
        (t / 86400 - cum (yearOf (t / 86400)))).1 + 1 := by
    show (((monthWalk (LEAP_YEAR (yearOf (t / 86400) : Int)) 12 0
        (t / 86400 - cum (yearOf (t / 86400)))).1 : Int) + 1).toNat = _
    omega
  have hmonv : (brokenDown t tme).tm_mon =
      ((monthWalk (LEAP_YEAR (yearOf (t / 86400) : Int)) 12 0
        (t / 86400 - cum (yearOf (t / 86400)))).1 : Int) + 1 := rfl
  have hdayv : (brokenDown t tme).tm_mday =
      (((monthWalk (LEAP_YEAR (yearOf (t / 86400) : Int)) 12 0
        (t / 86400 - cum (yearOf (t / 86400)))).2 + 1 : Nat) : Int) := rfl
  have hhour : (brokenDown t tme).tm_hour = ((t / 3600 % 24 : Nat) : Int) := rfl
  have hmin : (brokenDown t tme).tm_min = ((t / 60 % 60 : Nat) : Int) := rfl
  have hsec : (brokenDown t tme).tm_sec = ((t % 60 : Nat) : Int) := rfl
  refine ⟨brokenDown t tme, breakTime_eq t ht tme, ?_⟩
  rw [hyear, hmon, hdim, hmonv, hdayv, hhour, hmin, hsec]
  refine ⟨by omega, by omega, by omega, by omega, by omega, ?_, by omega, by omega, by omega,
    by omega, by omega, by omega, by omega, by omega⟩
  intro h2
  have h1 : (monthWalk (LEAP_YEAR (yearOf (t / 86400) : Int)) 12 0
        (t / 86400 - cum (yearOf (t / 86400)))).1 = 1 := by omega
  rw [h1, LEAP_YEAR_eq]
  unfold mlen
  simp

/-- C5, instance: the ranges at the last representable second (2106-02-07 06:28:15). -/
theorem C5_field_ranges_witness :
    4294967295 < 4294967296 ∧
    ∃ b, breakTime 4294967295 ⟨0, 0, 0, 0, 0, 0, 0, 0, 0⟩ = some b ∧
      1 ≤ b.tm_mon ∧ b.tm_mon ≤ 12 ∧ b.tm_mon ≠ 13 ∧
      1 ≤ b.tm_mday ∧
      b.tm_mday ≤ (daysInMonth (1970 + b.tm_year).toNat b.tm_mon.toNat : Int) ∧
      (b.tm_mon = 2 →
        daysInMonth (1970 + b.tm_year).toNat b.tm_mon.toNat =
          if isLeapGregorian (1970 + b.tm_year).toNat then 29 else 28) ∧
      daysInMonth (1970 + b.tm_year).toNat b.tm_mon.toNat ≤ 31 ∧
      b.tm_mday ≤ 31 ∧
      0 ≤ b.tm_hour ∧ b.tm_hour ≤ 23 ∧
      0 ≤ b.tm_min ∧ b.tm_min ≤ 59 ∧
      0 ≤ b.tm_sec ∧ b.tm_sec ≤ 59 :=
  ⟨by decide, C5_field_ranges 4294967295 (by decide) ⟨0, 0, 0, 0, 0, 0, 0, 0, 0⟩⟩

/-! ## C6: the tick loop -/

theorem sub32_lt (a b : Nat) : sub32 a b < 4294967296 := by
  unfold sub32 u32
  omega

theorem tickLoop_spec (m : Nat) (n : Nat) : ∀ (fuel s p : Nat), n + 1 ≤ fuel →
    s < 4294967296 → p < 4294967296 → sub32 m p / 1000 = n →
    tickLoop fuel m s p = some ((s + n) % 4294967296, (p + 1000 * n) % 4294967296) := by
  induction n with
  | zero =>
    intro fuel s p hf hs hp hk
    obtain ⟨f, rfl⟩ : ∃ f, fuel = f + 1 := ⟨fuel - 1, by omega⟩
    have hlt : ¬ sub32 m p ≥ 1000 := by omega
    simp only [tickLoop, if_neg hlt, Nat.add_zero, Nat.mul_zero]
    rw [Nat.mod_eq_of_lt hs, Nat.mod_eq_of_lt hp]
  | succ n ih =>
    intro fuel s p hf hs hp hk
    obtain ⟨f, rfl⟩ : ∃ f, fuel = f + 1 := ⟨fuel - 1, by omega⟩
    have hge : sub32 m p ≥ 1000 := by omega
    have hnext : sub32 m (add32 p 1000) / 1000 = n := by
      have : sub32 m (add32 p 1000) = sub32 m p - 1000 := by
        unfold sub32 u32 add32 at *
        omega
      rw [this]
      omega
    simp only [tickLoop, if_pos hge]
    rw [ih f (add32 s 1) (add32 p 1000) (by omega) (by unfold add32; omega)
      (by unfold add32; omega) hnext]
    unfold add32
    simp only [Option.some.injEq, Prod.mk.injEq]
    constructor <;> omega

/-- C6. Wraparound-safe tick step: for 32-bit `prevMillis = p`, tick reading `m` and
`sysTime = s`, the tick loop of `now()` ends, with `sysTime = (s + k) mod 2^32` and
`prevMillis = (p + 1000*k) mod 2^32` where `k = ((m - p) mod 2^32) / 1000`; afterwards
`(m - prevMillis) mod 2^32` is the sub-second remainder `((m - p) mod 2^32) mod 1000`,
below 1000, so `prevMillis` is not reset to `m`.  Nothing assumes `p ≤ m`: when the
counter has wrapped, the elapsed time is `m + 2^32 - p`. -/
theorem C6_tick_step (p m s : Nat) (hp : p < 4294967296) (hm : m < 4294967296)
    (hs : s < 4294967296) :
    tickLoop tickFuel m s p =
      some ((s + sub32 m p / 1000) % 4294967296,
        (p + 1000 * (sub32 m p / 1000)) % 4294967296) ∧
    sub32 m ((p + 1000 * (sub32 m p / 1000)) % 4294967296) = sub32 m p % 1000 ∧
    sub32 m ((p + 1000 * (sub32 m p / 1000)) % 4294967296) < 1000 ∧
    sub32 m p = (if p ≤ m then m - p else m + 4294967296 - p) := by
  have hlt := sub32_lt m p
  have hwrap : sub32 m p = (if p ≤ m then m - p else m + 4294967296 - p) := by
    unfold sub32 u32
    split <;> omega
  have hrem : sub32 m ((p + 1000 * (sub32 m p / 1000)) % 4294967296) = sub32 m p % 1000 := by
    unfold sub32 u32 at *
    omega
  refine ⟨?_, hrem, ?_, hwrap⟩
  · exact tickLoop_spec m _ tickFuel s p (by unfold tickFuel; omega) hs hp rfl
  · rw [hrem]
    omega

/-- C6, instance: the tick counter has wrapped (`m = 1500 < p = 2^32 - 2000`); 3500 ms
have passed, three seconds are counted and 500 ms remain. -/
theorem C6_tick_step_witness :
    4294965296 < 4294967296 ∧ 1500 < 4294967296 ∧ 10 < 4294967296 ∧
    tickLoop tickFuel 1500 10 4294965296 =
      some ((10 + sub32 1500 4294965296 / 1000) % 4294967296,
        (4294965296 + 1000 * (sub32 1500 4294965296 / 1000)) % 4294967296) ∧
    sub32 1500 ((4294965296 + 1000 * (sub32 1500 4294965296 / 1000)) % 4294967296) =
      sub32 1500 4294965296 % 1000 ∧
    sub32 1500 ((4294965296 + 1000 * (sub32 1500 4294965296 / 1000)) % 4294967296) < 1000 ∧
    sub32 1500 4294965296 = (if 4294965296 ≤ 1500 then 1500 - 4294965296
      else 1500 + 4294967296 - 4294965296) :=
  ⟨by decide, by decide, by decide,
    C6_tick_step 4294965296 1500 10 (by decide) (by decide) (by decide)⟩

/-! ## C7: no drift over many calls -/

theorem now_tick (s : ClockState) (m r : Nat) (hs : s.sysTime < 4294967296)
    (hp : s.prevMillis < 4294967296) (hprov : s.getTimePtr = none ∨ r = 0) :
    ∃ s1, now s m r = some (s1, (s.sysTime + sub32 m s.prevMillis / 1000) % 4294967296) ∧
      s1.sysTime = (s.sysTime + sub32 m s.prevMillis / 1000) % 4294967296 ∧
      s1.prevMillis = (s.prevMillis + 1000 * (sub32 m s.prevMillis / 1000)) % 4294967296 ∧
      s1.getTimePtr = s.getTimePtr := by
  have ht := tickLoop_spec m (sub32 m s.prevMillis / 1000) tickFuel s.sysTime s.prevMillis
    (by have := sub32_lt m s.prevMillis; unfold tickFuel; omega) hs hp rfl
  by_cases h1 : s.nextSyncTime ≤ (s.sysTime + sub32 m s.prevMillis / 1000) % 4294967296
  · cases hg : s.getTimePtr with
    | none =>
      simp only [now, ht, h1, hg, if_true]
      exact ⟨_, rfl, rfl, rfl, rfl⟩
    | some q =>
      have hr : r = 0 := by
        rcases hprov with hn | hr
        · rw [hg] at hn; exact absurd hn (by simp)
        · exact hr
      simp only [now, ht, h1, hg, hr, if_true, ne_eq, not_true_eq_false, if_false]
      exact ⟨_, rfl, rfl, rfl, rfl⟩
  · simp only [now, ht, h1, if_false]
    exact ⟨_, rfl, rfl, rfl, rfl⟩

theorem nowAll_gen (s0 p0 : Nat) : ∀ (calls : List (Nat × Nat)) (st : ClockState) (k : Nat),
    st.sysTime = (s0 + k) % 4294967296 → st.prevMillis = (p0 + 1000 * k) % 4294967296 →
    (st.getTimePtr = none ∨ ∀ c ∈ calls, c.2 = 0) →
    List.Chain (fun a b => a ≤ b) (p0 + 1000 * k) (calls.map Prod.fst) →
    (∀ c ∈ calls, c.1 - p0 < 4294967296) →
    ∃ s1, nowAll st (calls.map (fun c => (c.1 % 4294967296, c.2))) =
      some (s1, calls.map (fun c => (s0 + (c.1 - p0) / 1000) % 4294967296)) := by
  intro calls
  induction calls with
  | nil => intro st k _ _ _ _ _; exact ⟨st, rfl⟩
  | cons c rest ih =>
    intro st k hs hp hprov hchain hspan
    simp only [List.map_cons, List.chain_cons] at hchain
    obtain ⟨hle, hrest⟩ := hchain
    have hsp := hspan c (List.mem_cons_self c rest)
    have hd : sub32 (c.1 % 4294967296) st.prevMillis = c.1 - (p0 + 1000 * k) := by
      rw [hp]
      unfold sub32 u32
      omega
    obtain ⟨s1, hnow, hs1, hp1, hg1⟩ := now_tick st (c.1 % 4294967296) c.2
      (by rw [hs]; omega) (by rw [hp]; omega)
      (by
        rcases hprov with h | h
        · exact Or.inl h
        · exact Or.inr (h c (List.mem_cons_self c rest)))
    rw [hd] at hnow hs1 hp1
    have hk : (c.1 - p0) / 1000 = k + (c.1 - (p0 + 1000 * k)) / 1000 := by omega
    have hs1k : s1.sysTime = (s0 + (c.1 - p0) / 1000) % 4294967296 := by
      rw [hs1, hs, hk]; omega
    have hp1k : s1.prevMillis = (p0 + 1000 * ((c.1 - p0) / 1000)) % 4294967296 := by
      rw [hp1, hp, hk]; omega
    have hv : (st.sysTime + (c.1 - (p0 + 1000 * k)) / 1000) % 4294967296 =
        (s0 + (c.1 - p0) / 1000) % 4294967296 := by
      rw [hs, hk]; omega
    rw [hv] at hnow
    obtain ⟨s2, hall⟩ := ih s1 ((c.1 - p0) / 1000) hs1k hp1k
      (by
        rcases hprov with h | h
        · exact Or.inl (by rw [hg1]; exact h)
        · exact Or.inr (fun c1 hc1 => h c1 (List.mem_cons_of_mem c hc1)))
      (List.Chain.imp' (fun a b (hab : a ≤ b) => hab) (fun z (hz : c.1 ≤ z) => by omega) hrest)
      (fun c1 hc1 => hspan c1 (List.mem_cons_of_mem c hc1))
    refine ⟨s2, ?_⟩
    simp only [List.map_cons, nowAll, hnow, hall]

/-- C7 (amended). No drift over many calls: with no sync provider registered, or with
every provider reading 0, starting from `sysTime = s` and `prevMillis = p` (32-bit
values), for every finite run of `now()` calls whose elapsed tick counts
`m_1 ≤ m_2 ≤ ... ≤ m_n` satisfy `p ≤ m_1` and `m_i - p < 2^32` (call `i` sees the
reading `m_i mod 2^32`), every call returns, and call `i` returns
`(s + (m_i - p) / 1000) mod 2^32`, whatever calls were made before it.  A single
call whose reading is less than 1000 ms past `prevMillis` leaves `sysTime` as it was. -/
theorem C7_no_drift (st : ClockState) (calls : List (Nat × Nat))
    (hs : st.sysTime < 4294967296) (hp : st.prevMillis < 4294967296)
    (hprov : st.getTimePtr = none ∨ ∀ c ∈ calls, c.2 = 0)
    (hmono : List.Chain (fun a b => a ≤ b) st.prevMillis (calls.map Prod.fst))
    (hspan : ∀ c ∈ calls, c.1 - st.prevMillis < 4294967296) :
    (∃ s1, nowAll st (calls.map (fun c => (c.1 % 4294967296, c.2))) =
      some (s1, calls.map
        (fun c => (st.sysTime + (c.1 - st.prevMillis) / 1000) % 4294967296))) ∧
    (∀ m r : Nat, (st.getTimePtr = none ∨ r = 0) → sub32 m st.prevMillis < 1000 →
      ∃ s1, now st m r = some (s1, st.sysTime) ∧ s1.sysTime = st.sysTime) := by
  constructor
  · exact nowAll_gen st.sysTime st.prevMillis calls st 0
      (by rw [Nat.add_zero, Nat.mod_eq_of_lt hs])
      (by rw [Nat.mul_zero, Nat.add_zero, Nat.mod_eq_of_lt hp])
      hprov (by rw [Nat.mul_zero, Nat.add_zero]; exact hmono) hspan
  · intro m r hpr hlt
    obtain ⟨s1, hnow, hs1, _, _⟩ := now_tick st m r hs hp hpr
    have hz : sub32 m st.prevMillis / 1000 = 0 := by omega
    rw [hz, Nat.add_zero, Nat.mod_eq_of_lt hs] at hnow hs1
    exact ⟨s1, hnow, hs1⟩

/-- C7, instance of the amended statement: four calls at 400, 900, 1300 and 2600 ms
after start return 0, 0, 1 and 2; a call at 500 ms leaves `sysTime` at 0. -/
theorem C7_no_drift_witness :
    initialState.sysTime < 4294967296 ∧ initialState.prevMillis < 4294967296 ∧
    (∃ s1, nowAll initialState
      ([(400, 0), (900, 0), (1300, 0), (2600, 0)].map (fun c => (c.1 % 4294967296, c.2))) =
      some (s1, [(400, 0), (900, 0), (1300, 0), (2600, 0)].map
        (fun c => (initialState.sysTime + (c.1 - initialState.prevMillis) / 1000) %
          4294967296))) ∧
    sub32 500 initialState.prevMillis < 1000 ∧
    (∃ s1, now initialState 500 0 = some (s1, initialState.sysTime) ∧
      s1.sysTime = initialState.sysTime) :=
  ⟨by decide, by decide,
    (C7_no_drift initialState [(400, 0), (900, 0), (1300, 0), (2600, 0)]
      (by decide) (by decide) (Or.inl rfl) (by simp [initialState]) (by decide)).1,
    by decide,
    (C7_no_drift initialState [(400, 0), (900, 0), (1300, 0), (2600, 0)]
      (by decide) (by decide) (Or.inl rfl) (by simp [initialState]) (by decide)).2
      500 0 (Or.inl rfl) (by decide)⟩

/-- C7 as stated fails when the 32-bit `sysTime` wraps: after `setTime(4294967295)` at
tick 0 (no provider), a `now()` call at tick 1000 returns 0, while
`s + (m - p) / 1000` is `4294967296`. -/
theorem C7_counterexample :
    (setTime initialState 4294967295 0).sysTime = 4294967295 ∧
    (setTime initialState 4294967295 0).prevMillis = 0 ∧
    (setTime initialState 4294967295 0).getTimePtr = none ∧
    (now (setTime initialState 4294967295 0) 1000 0).map Prod.snd = some 0 ∧
    (0 : Nat) ≠ 4294967295 + (1000 - 0) / 1000 := by
  decide

/-! ## C8: `setTime(time_t)` -/

/-- C8. Postcondition of `setTime(t)` with tick reading `m`, for every prior state and
every `t`: `sysTime = t mod 2^32`, `nextSyncTime = (t + syncInterval) mod 2^32`,
`Status = timeSet`, `prevMillis = m`; `syncInterval`, the registered provider, the
breakdown cache and the count of provider calls are unchanged; and the result is the
same whatever the prior `sysTime`, `prevMillis`, `nextSyncTime` and `Status` were. -/
theorem C8_setTime (s : ClockState) (t m : Nat) :
    (setTime s t m).sysTime = t % 4294967296 ∧
    (setTime s t m).nextSyncTime = (t + s.syncInterval) % 4294967296 ∧
    (setTime s t m).Status = timeStatus_t.timeSet ∧
    (setTime s t m).prevMillis = m ∧
    (setTime s t m).syncInterval = s.syncInterval ∧
    (setTime s t m).getTimePtr = s.getTimePtr ∧
    (setTime s t m).cacheTime = s.cacheTime ∧
    (setTime s t m)._tm = s._tm ∧
    (setTime s t m).providerCalls = s.providerCalls ∧
    (∀ (a b c : Nat) (d : timeStatus_t),
      setTime { s with sysTime := a, prevMillis := b, nextSyncTime := c, Status := d } t m =
        setTime s t m) := by
  refine ⟨rfl, ?_, rfl, rfl, rfl, rfl, rfl, rfl, rfl, ?_⟩
  · show add32 (t % 4294967296) s.syncInterval = (t + s.syncInterval) % 4294967296
    exact add32_mod_left t s.syncInterval
  · intro a b c d
    rfl

/-! ## C10: `adjustTime` -/

/-- C10. Frame of `adjustTime`: for every state and every signed `delta`,
`adjustTime(delta)` sets `sysTime` to `(sysTime + delta) mod 2^32` and leaves
`nextSyncTime`, `Status`, `prevMillis`, `syncInterval`, the registered provider, the
breakdown cache and the count of provider calls unchanged.  The operation takes no
tick reading and no provider reading. -/
theorem C10_adjustTime (s : ClockState) (delta : Int) :
    ((adjustTime s delta).sysTime : Int) = ((s.sysTime : Int) + delta) % 4294967296 ∧
    (adjustTime s delta).nextSyncTime = s.nextSyncTime ∧
    (adjustTime s delta).Status = s.Status ∧
    (adjustTime s delta).prevMillis = s.prevMillis ∧
    (adjustTime s delta).syncInterval = s.syncInterval ∧
    (adjustTime s delta).getTimePtr = s.getTimePtr ∧
    (adjustTime s delta).cacheTime = s.cacheTime ∧
    (adjustTime s delta)._tm = s._tm ∧
    (adjustTime s delta).providerCalls = s.providerCalls := by
  refine ⟨?_, rfl, rfl, rfl, rfl, rfl, rfl, rfl, rfl⟩
  show ((u32 ((s.sysTime : Int) + delta) : Nat) : Int) = ((s.sysTime : Int) + delta) % 4294967296
  unfold u32
  omega

/-! ## C9: `setTime` from components -/

theorem dbm_mlen_le : ∀ (leap : Bool), ∀ mo < 12,
    dbm leap mo + mlen leap mo ≤ (if leap then 366 else 365) := by
  decide

theorem monthWalk_of_date : ∀ (leap : Bool), ∀ mo < 12, ∀ dd < 31, dd < mlen leap mo →
    monthWalk leap 12 0 (dbm leap mo + dd) = (mo, dd) := by
  decide!

/-- Reverse round trip on natural-number fields: a valid calendar instant with year
offset at most 135 is encoded by `makeTime` into a 32-bit value that `breakTime`
decodes into the same fields. -/
theorem breakTime_makeTime_nat (b : tm) (Y mo dd h mi s : Nat) (hY135 : Y ≤ 135)
    (hmo : mo < 12) (hdd : dd < mlen (LEAP_YEAR (Y : Int)) mo)
    (hh : h < 24) (hmi : mi < 60) (hs : s < 60)
    (hY : b.tm_year = (Y : Int)) (hM : b.tm_mon = (mo : Int) + 1)
    (hD : b.tm_mday = ((dd + 1 : Nat) : Int)) (hH : b.tm_hour = (h : Int))
    (hMi : b.tm_min = (mi : Int)) (hS : b.tm_sec = (s : Int)) (tme : tm) :
    ∃ T, makeTime b = some T ∧ T < 4294967296 ∧
      ∃ b1, breakTime T tme = some b1 ∧ b1.tm_year = (Y : Int) ∧
        b1.tm_mon = (mo : Int) + 1 ∧ b1.tm_mday = ((dd + 1 : Nat) : Int) ∧
        b1.tm_hour = (h : Int) ∧ b1.tm_min = (mi : Int) ∧ b1.tm_sec = (s : Int) := by
  have hmk := makeTime_nat b Y mo dd h mi s hmo hY hM hD hH hMi hS
  have hml := mlen_le (LEAP_YEAR (Y : Int)) mo
  have hdl := dbm_mlen_le (LEAP_YEAR (Y : Int)) mo hmo
  have hc1 : cum (Y + 1) = cum Y + (if LEAP_YEAR (Y : Int) then 366 else 365) := rfl
  have hc136 : cum (Y + 1) ≤ 49673 := by
    have := cum_mono (show Y + 1 ≤ 136 by omega)
    rw [cum_136] at this
    exact this
  have hwalk := monthWalk_of_date (LEAP_YEAR (Y : Int)) mo hmo dd (by omega) hdd
  generalize hL : LEAP_YEAR (Y : Int) = L at *
  generalize hdb : dbm L mo = db at *
  generalize hcY : cum Y = c at *
  generalize hcY1 : cum (Y + 1) = c1 at *
  have hlt : (c + db + dd) * 86400 + h * 3600 + mi * 60 + s < 4294967296 := by omega
  rw [Nat.mod_eq_of_lt hlt] at hmk
  refine ⟨_, hmk, hlt, ?_⟩
  have hdiv : ((c + db + dd) * 86400 + h * 3600 + mi * 60 + s) / 86400 = c + db + dd := by
    omega
  have hyear : yearOf (c + db + dd) = Y :=
    yearOf_unique _ Y (by omega) (by rw [hcY]; omega) (by rw [hcY1]; omega)
  refine ⟨_, breakTime_eq _ hlt tme, ?_⟩
  simp only [brokenDown, hdiv, hyear, hL, hcY]
  have hsub : c + db + dd - c = db + dd := by omega
  rw [hsub, hwalk]
  refine ⟨trivial, rfl, rfl, ?_, ?_, ?_⟩
  · have : ((c + db + dd) * 86400 + h * 3600 + mi * 60 + s) / 3600 % 24 = h := by omega
    rw [this]
  · have : ((c + db + dd) * 86400 + h * 3600 + mi * 60 + s) / 60 % 60 = mi := by omega
    rw [this]
  · have : ((c + db + dd) * 86400 + h * 3600 + mi * 60 + s) % 60 = s := by omega
    rw [this]

theorem setTime6_eq (s : ClockState) (m : Nat) (hr min sec dy mnth yr : Int) :
    setTime6 s m hr min sec dy mnth yr =
      (makeTime (componentsTm s._tm hr min sec dy mnth yr)).map
        (fun t => setTime { s with _tm := componentsTm s._tm hr min sec dy mnth yr } t m) := by
  unfold setTime6
  have hb : ({ s._tm with
      tm_year := if yr > 99 then yr - 1970 else yr + 30
      tm_mon := mnth
      tm_mday := dy
      tm_hour := hr
      tm_min := min
      tm_sec := sec } : tm) = componentsTm s._tm hr min sec dy mnth yr := rfl
  simp only [hb]
  cases makeTime (componentsTm s._tm hr min sec dy mnth yr) <;> rfl

/-- What `setTime` from components does in every state.  For all
`hr, min, sec, dy, mnth, yr` the call `setTime(hr,min,sec,dy,mnth,yr)` ends exactly when
`makeTime(b)` has a value, `b` being the components with `tm_year = yr - 1970` if
`yr > 99` and `yr + 30` otherwise; its result is `setTime(makeTime(b))` applied to the
state whose cached breakdown `_tm` has been overwritten with `b`, so `sysTime`,
`prevMillis`, `nextSyncTime`, `Status`, `syncInterval` and the provider are those that
`setTime(makeTime(b))` produces from the prior state, while `_tm` is not.  For `y2` in
0..99 the calls with `y2` and with `2000 + y2` give the same state.  For a valid
calendar date with year in 1970..2105, `breakTime` of the resulting `sysTime` gives
back the year, month, day, hour, minute and second that were passed. -/
theorem setTime6_components (s : ClockState) (m : Nat) (hr min sec dy mnth yr : Int)
    (tme : tm) :
    setTime6 s m hr min sec dy mnth yr =
      (makeTime (componentsTm s._tm hr min sec dy mnth yr)).map
        (fun t => setTime { s with _tm := componentsTm s._tm hr min sec dy mnth yr } t m) ∧
    (setTime6 s m hr min sec dy mnth yr).map clockVars =
      (makeTime (componentsTm s._tm hr min sec dy mnth yr)).map
        (fun t => clockVars (setTime s t m)) ∧
    (∀ y2 : Int, 0 ≤ y2 → y2 ≤ 99 →
      setTime6 s m hr min sec dy mnth y2 = setTime6 s m hr min sec dy mnth (2000 + y2)) ∧
    (1970 ≤ yr → yr ≤ 2105 → 1 ≤ mnth → mnth ≤ 12 →
      1 ≤ dy → dy ≤ (daysInMonth yr.toNat mnth.toNat : Int) →
      0 ≤ hr → hr ≤ 23 → 0 ≤ min → min ≤ 59 → 0 ≤ sec → sec ≤ 59 →
      ∃ s1, setTime6 s m hr min sec dy mnth yr = some s1 ∧
        ∃ b1, breakTime s1.sysTime tme = some b1 ∧
          tmYearToCalendar b1.tm_year = yr ∧ b1.tm_mon = mnth ∧ b1.tm_mday = dy ∧
          b1.tm_hour = hr ∧ b1.tm_min = min ∧ b1.tm_sec = sec) := by
  refine ⟨setTime6_eq s m hr min sec dy mnth yr, ?_, ?_, ?_⟩
  · rw [setTime6_eq]
    cases makeTime (componentsTm s._tm hr min sec dy mnth yr) <;> rfl
  · intro y2 h0 h99
    have hc : componentsTm s._tm hr min sec dy mnth y2 =
        componentsTm s._tm hr min sec dy mnth (2000 + y2) := by
      unfold componentsTm CalendarYrToTm y2kYearToTm
      rw [if_neg (by omega), if_pos (by omega)]
      have : y2 + 30 = 2000 + y2 - 1970 := by omega
      rw [this]
    rw [setTime6_eq, setTime6_eq, hc]
  · intro hy1 hy2 hm1 hm2 hd1 hd2 hh1 hh2 hmi1 hmi2 hs1 hs2
    have hmo : (mnth - 1).toNat < 12 := by omega
    have hdim := daysInMonth_eq yr.toNat (mnth - 1).toNat hmo
    have hmn : (mnth - 1).toNat + 1 = mnth.toNat := by omega
    rw [hmn] at hdim
    have hleap := LEAP_YEAR_eq (yr - 1970).toNat
    have hyn : 1970 + (yr - 1970).toNat = yr.toNat := by omega
    rw [hyn] at hleap
    rw [hdim, ← hleap] at hd2
    have hyear : (componentsTm s._tm hr min sec dy mnth yr).tm_year =
        (((yr - 1970).toNat : Nat) : Int) := by
      show (if yr > 99 then CalendarYrToTm yr else y2kYearToTm yr) = _
      unfold CalendarYrToTm
      rw [if_pos (by omega)]
      omega
    obtain ⟨T, hT, hTlt, b1, hb1, e1, e2, e3, e4, e5, e6⟩ :=
      breakTime_makeTime_nat (componentsTm s._tm hr min sec dy mnth yr)
        (yr - 1970).toNat (mnth - 1).toNat (dy - 1).toNat hr.toNat min.toNat sec.toNat
        (by omega) hmo (by omega) (by omega) (by omega) (by omega)
        hyear
        (show mnth = (((mnth - 1).toNat : Nat) : Int) + 1 by omega)
        (show dy = ((((dy - 1).toNat + 1 : Nat)) : Int) by omega)
        (show hr = ((hr.toNat : Nat) : Int) by omega)
        (show min = ((min.toNat : Nat) : Int) by omega)
        (show sec = ((sec.toNat : Nat) : Int) by omega) tme
    rw [setTime6_eq, hT]
    refine ⟨_, rfl, b1, ?_, ?_, ?_, ?_, ?_, ?_, ?_⟩
    · show breakTime (T % 4294967296) tme = some b1
      rw [Nat.mod_eq_of_lt hTlt]
      exact hb1
    · unfold tmYearToCalendar
      rw [e1]; omega
    · rw [e2]; omega
    · rw [e3]; omega
    · rw [e4]; omega
    · rw [e5]; omega
    · rw [e6]; omega

/-- An instance of `setTime6_components`: 29 February 2000, 12:34:56, given with the
full year, and the two-digit year 0 against 2000. -/
theorem setTime6_components_instance :
    ((0 : Int) ≤ 0 ∧ (0 : Int) ≤ 99 ∧
      setTime6 initialState 0 12 34 56 29 2 0 =
        setTime6 initialState 0 12 34 56 29 2 (2000 + 0)) ∧
    ((1970 : Int) ≤ 2000 ∧ (2000 : Int) ≤ 2105 ∧ (1 : Int) ≤ 2 ∧ (2 : Int) ≤ 12 ∧
      (1 : Int) ≤ 29 ∧ (29 : Int) ≤ (daysInMonth (2000 : Int).toNat (2 : Int).toNat : Int) ∧
      ∃ s1, setTime6 initialState 0 12 34 56 29 2 2000 = some s1 ∧
        ∃ b1, breakTime s1.sysTime ⟨0, 0, 0, 0, 0, 0, 0, 0, 0⟩ = some b1 ∧
          tmYearToCalendar b1.tm_year = 2000 ∧ b1.tm_mon = 2 ∧ b1.tm_mday = 29 ∧
          b1.tm_hour = 12 ∧ b1.tm_min = 34 ∧ b1.tm_sec = 56) :=
  ⟨⟨by decide, by decide,
      (setTime6_components initialState 0 12 34 56 29 2 2000
        ⟨0, 0, 0, 0, 0, 0, 0, 0, 0⟩).2.2.1 0 (by decide) (by decide)⟩,
    ⟨by decide, by decide, by decide, by decide, by decide, by decide,
      (setTime6_components initialState 0 12 34 56 29 2 2000
        ⟨0, 0, 0, 0, 0, 0, 0, 0, 0⟩).2.2.2 (by decide) (by decide) (by decide) (by decide)
        (by decide) (by decide) (by decide) (by decide) (by decide) (by decide) (by decide)
        (by decide)⟩⟩

/-- C9, the code at the failing input: after `hour(86400)` from the initial state the
cache holds the breakdown of `t = 86400` (00:00:00 on 1970-01-02).  From that state
`setTime(12,34,56,29,2,2000)` at tick 0 and
`setTime(makeTime(b))` at tick 0, `b` being the components with `tm_year = 30`, both
return and do not leave the clock in the same state.  `sysTime = 951827696`,
`prevMillis`, `nextSyncTime`, `Status`, `syncInterval`, the provider and
`cacheTime = 86400` are the same; the cached breakdown `_tm` is not: after the call
with components it holds hour 12 and day 29, so `hour(86400)` returns 12 and
`day(86400)` returns 29, and after `setTime(makeTime(b))` it still holds hour 0 and
day 2, which `hour(86400)` and `day(86400)` return. -/
theorem C9_setTime6_state_differs :
    hour initialState 86400 = some (exampleCached, 0) ∧
    ∃ s1 s2, setTime6 exampleCached 0 12 34 56 29 2 2000 = some s1 ∧
      (makeTime (componentsTm exampleCached._tm 12 34 56 29 2 2000)).map
        (fun t => setTime exampleCached t 0) = some s2 ∧
      s1 ≠ s2 ∧
      clockVars s1 = clockVars s2 ∧ s1.sysTime = 951827696 ∧
      s1.cacheTime = 86400 ∧ s2.cacheTime = 86400 ∧
      (s1._tm.tm_hour, s1._tm.tm_mday) = (12, 29) ∧
      (s2._tm.tm_hour, s2._tm.tm_mday) = (0, 2) ∧
      ((hour s1 86400).map Prod.snd, (day s1 86400).map Prod.snd) = (some 12, some 29) ∧
      ((hour s2 86400).map Prod.snd, (day s2 86400).map Prod.snd) = (some 0, some 2) := by
  refine ⟨by decide, _, _, rfl, rfl, ?_⟩
  decide

/-! ## C11-C14: the resync check and the trust status -/

theorem now_eq (s : ClockState) (m r : Nat) (hs : s.sysTime < 4294967296)
    (hp : s.prevMillis < 4294967296) :
    now s m r = some (resyncCheck (afterTicks s m) m r, (resyncCheck (afterTicks s m) m r).sysTime) := by
  have ht := tickLoop_spec m (sub32 m s.prevMillis / 1000) tickFuel s.sysTime s.prevMillis
    (by have := sub32_lt m s.prevMillis; unfold tickFuel; omega) hs hp rfl
  unfold now
  rw [ht]
  rfl

theorem afterTicks_sysTime_lt (s : ClockState) (m : Nat) :
    (afterTicks s m).sysTime < 4294967296 := by
  show (s.sysTime + sub32 m s.prevMillis / 1000) % 4294967296 < 4294967296
  omega

theorem afterTicks_prevMillis_lt (s : ClockState) (m : Nat) :
    (afterTicks s m).prevMillis < 4294967296 := by
  show (s.prevMillis + 1000 * (sub32 m s.prevMillis / 1000)) % 4294967296 < 4294967296
  omega

/-- The resync check when the provider is absent or hands back 0: the clock values
stay, and `timeNotSet` stays `timeNotSet`. -/
theorem resyncCheck_quiet (s1 : ClockState) (m r : Nat)
    (hprov : s1.getTimePtr = none ∨ r = 0) :
    (resyncCheck s1 m r).sysTime = s1.sysTime ∧
    (resyncCheck s1 m r).prevMillis = s1.prevMillis ∧
    (resyncCheck s1 m r).getTimePtr = s1.getTimePtr ∧
    (s1.Status = timeStatus_t.timeNotSet →
      (resyncCheck s1 m r).Status = timeStatus_t.timeNotSet) := by
  unfold resyncCheck
  by_cases h1 : s1.nextSyncTime ≤ s1.sysTime
  · cases hg : s1.getTimePtr with
    | none => simp [h1, hg]
    | some q =>
      have hr : r = 0 := by
        rcases hprov with hn | hr
        · rw [hg] at hn; exact absurd hn (by simp)
        · exact hr
      simp [h1, hr, hg]
  · simp [h1]

theorem now_notSet (s : ClockState) (m r : Nat) (hs : s.sysTime < 4294967296)
    (hp : s.prevMillis < 4294967296) (hst : s.Status = timeStatus_t.timeNotSet)
    (hprov : s.getTimePtr = none ∨ r = 0) :
    ∃ s1 v, now s m r = some (s1, v) ∧ s1.sysTime < 4294967296 ∧
      s1.prevMillis < 4294967296 ∧ s1.Status = timeStatus_t.timeNotSet ∧
      s1.getTimePtr = s.getTimePtr := by
  obtain ⟨h1, h2, h3, h4⟩ := resyncCheck_quiet (afterTicks s m) m r hprov
  refine ⟨_, _, now_eq s m r hs hp, ?_, ?_, h4 hst, h3⟩
  · rw [h1]; exact afterTicks_sysTime_lt s m
  · rw [h2]; exact afterTicks_prevMillis_lt s m

theorem stepOp_notSet (s : ClockState) (op : Op) (hs : s.sysTime < 4294967296)
    (hp : s.prevMillis < 4294967296) (hst : s.Status = timeStatus_t.timeNotSet)
    (hprov : readingZero op ∨ (s.getTimePtr = none ∧ registersNone op)) :
    ∃ s1, stepOp s op = some s1 ∧ s1.sysTime < 4294967296 ∧
      s1.prevMillis < 4294967296 ∧ s1.Status = timeStatus_t.timeNotSet ∧
      (s.getTimePtr = none ∧ registersNone op → s1.getTimePtr = none) := by
  cases op with
  | now m r =>
    obtain ⟨s1, v, hn, a, b, c, d⟩ := now_notSet s m r hs hp hst
      (by rcases hprov with h | h
          · exact Or.inr h
          · exact Or.inl h.1)
    refine ⟨s1, ?_, a, b, c, fun h => by rw [d]; exact h.1⟩
    simp only [stepOp, hn, Option.map_some']
  | timeStatus m r =>
    obtain ⟨s1, v, hn, a, b, c, d⟩ := now_notSet s m r hs hp hst
      (by rcases hprov with h | h
          · exact Or.inr h
          · exact Or.inl h.1)
    refine ⟨s1, ?_, a, b, c, fun h => by rw [d]; exact h.1⟩
    simp only [stepOp, timeStatus, hn, Option.map_some']
  | adjustTime adjustment =>
    refine ⟨adjustTime s adjustment, rfl, ?_, hp, hst, fun h => h.1⟩
    show u32 ((s.sysTime : Int) + adjustment) < 4294967296
    unfold u32
    omega
  | setSyncInterval interval =>
    exact ⟨setSyncInterval s interval, rfl, hs, hp, hst, fun h => h.1⟩
  | setSyncProvider q m r =>
    obtain ⟨s1, v, hn, a, b, c, d⟩ := now_notSet
      { s with getTimePtr := q, nextSyncTime := s.sysTime } m r hs hp hst
      (by rcases hprov with h | h
          · exact Or.inr h
          · exact Or.inl h.2)
    refine ⟨s1, ?_, a, b, c, fun h => by rw [d]; exact h.2⟩
    simp only [stepOp, setSyncProvider, hn]

theorem runOps_notSet : ∀ (ops : List Op) (s : ClockState), s.sysTime < 4294967296 →
    s.prevMillis < 4294967296 → s.Status = timeStatus_t.timeNotSet →
    ((∀ op ∈ ops, readingZero op) ∨ (s.getTimePtr = none ∧ ∀ op ∈ ops, registersNone op)) →
    ∃ s1, runOps s ops = some s1 ∧ s1.Status = timeStatus_t.timeNotSet := by
  intro ops
  induction ops with
  | nil => intro s _ _ hst _; exact ⟨s, rfl, hst⟩
  | cons op rest ih =>
    intro s hs hp hst hprov
    obtain ⟨s1, hstep, a, b, c, d⟩ := stepOp_notSet s op hs hp hst
      (by rcases hprov with h | h
          · exact Or.inl (h op (List.mem_cons_self op rest))
          · exact Or.inr ⟨h.1, h.2 op (List.mem_cons_self op rest)⟩)
    obtain ⟨s2, hrun, hst2⟩ := ih s1 a b c
      (by rcases hprov with h | h
          · exact Or.inl (fun o ho => h o (List.mem_cons_of_mem op ho))
          · exact Or.inr ⟨d ⟨h.1, h.2 op (List.mem_cons_self op rest)⟩,
              fun o ho => h.2 o (List.mem_cons_of_mem op ho)⟩)
    exact ⟨s2, by simp only [runOps, hstep, hrun], hst2⟩

/-- C11. An unset clock stays `timeNotSet`: from the initial state, after every finite
sequence of `now()`, `timeStatus()`, `adjustTime`, `setSyncInterval` and
`setSyncProvider` calls (no `setTime`) in which every provider reading is 0, or in
which no provider is registered, every call returns and `Status` is `timeNotSet`
after the sequence and after each of its initial parts; it is never
`timeNeedsSync`. -/
theorem C11_unset_stays_unset (ops : List Op)
    (h : (∀ op ∈ ops, readingZero op) ∨ (∀ op ∈ ops, registersNone op)) :
    (∃ s1, runOps initialState ops = some s1 ∧ s1.Status = timeStatus_t.timeNotSet) ∧
    (∀ n : Nat, ∃ s1, runOps initialState (ops.take n) = some s1 ∧
      s1.Status = timeStatus_t.timeNotSet ∧ s1.Status ≠ timeStatus_t.timeNeedsSync) := by
  have key : ∀ l : List Op, (∀ op ∈ l, op ∈ ops) →
      ∃ s1, runOps initialState l = some s1 ∧ s1.Status = timeStatus_t.timeNotSet := by
    intro l hl
    apply runOps_notSet l initialState (by decide) (by decide) rfl
    rcases h with h | h
    · exact Or.inl (fun o ho => h o (hl o ho))
    · exact Or.inr ⟨rfl, fun o ho => h o (hl o ho)⟩
  refine ⟨key ops (fun _ ho => ho), fun n => ?_⟩
  obtain ⟨s1, h1, h2⟩ := key (ops.take n) (fun o ho => List.mem_of_mem_take ho)
  exact ⟨s1, h1, h2, by rw [h2]; decide⟩

/-- C11, instance: a provider that keeps returning 0 is registered at start; after
`now()`, `adjustTime`, `setSyncInterval` and `timeStatus()` the status is unchanged. -/
theorem C11_unset_stays_unset_witness :
    (∀ op ∈ [Op.setSyncProvider (some 1) 0 0, Op.now 400000 0, Op.adjustTime 5,
      Op.setSyncInterval 10, Op.timeStatus 500000 0], readingZero op) ∧
    (∃ s1, runOps initialState [Op.setSyncProvider (some 1) 0 0, Op.now 400000 0,
      Op.adjustTime 5, Op.setSyncInterval 10, Op.timeStatus 500000 0] = some s1 ∧
      s1.Status = timeStatus_t.timeNotSet) :=
  ⟨by simp [readingZero],
    (C11_unset_stays_unset [Op.setSyncProvider (some 1) 0 0, Op.now 400000 0,
      Op.adjustTime 5, Op.setSyncInterval 10, Op.timeStatus 500000 0]
      (Or.inl (by simp [readingZero]))).1⟩

/-- C12. Status transition of the resync check in `now()`, for a state with 32-bit
`sysTime` and `prevMillis`; `s` below is `sysTime` after tick accumulation,
`(sysTime + k) mod 2^32`.  If `nextSyncTime > s`, or no provider is registered, then
`now()` returns `s`, `Status` and `nextSyncTime` are unchanged and the provider is not
called.  If `nextSyncTime ≤ s` and the registered provider returns 0, then `Status`
becomes `timeNeedsSync` when it was `timeSet` or `timeNeedsSync` and stays
`timeNotSet` when it was `timeNotSet`, `sysTime` stays `s`, `nextSyncTime` becomes
`(s + syncInterval) mod 2^32`, and the provider has been called once. -/
theorem C12_resync_transition (st : ClockState) (m r : Nat)
    (hs : st.sysTime < 4294967296) (hp : st.prevMillis < 4294967296) :
    ((st.nextSyncTime > (st.sysTime + sub32 m st.prevMillis / 1000) % 4294967296 ∨
        st.getTimePtr = none) →
      ∃ s1, now st m r =
          some (s1, (st.sysTime + sub32 m st.prevMillis / 1000) % 4294967296) ∧
        s1.Status = st.Status ∧ s1.nextSyncTime = st.nextSyncTime ∧
        s1.sysTime = (st.sysTime + sub32 m st.prevMillis / 1000) % 4294967296 ∧
        s1.providerCalls = st.providerCalls) ∧
    (st.nextSyncTime ≤ (st.sysTime + sub32 m st.prevMillis / 1000) % 4294967296 →
      st.getTimePtr ≠ none → r = 0 →
      ∃ s1, now st m r =
          some (s1, (st.sysTime + sub32 m st.prevMillis / 1000) % 4294967296) ∧
        (st.Status = timeStatus_t.timeSet → s1.Status = timeStatus_t.timeNeedsSync) ∧
        (st.Status = timeStatus_t.timeNeedsSync → s1.Status = timeStatus_t.timeNeedsSync) ∧
        (st.Status = timeStatus_t.timeNotSet → s1.Status = timeStatus_t.timeNotSet) ∧
        s1.sysTime = (st.sysTime + sub32 m st.prevMillis / 1000) % 4294967296 ∧
        s1.nextSyncTime =
          ((st.sysTime + sub32 m st.prevMillis / 1000) % 4294967296 + st.syncInterval) %
            4294967296 ∧
        s1.providerCalls = st.providerCalls + 1) := by
  have hnow := now_eq st m r hs hp
  constructor
  · intro h
    have hq : resyncCheck (afterTicks st m) m r = afterTicks st m := by
      unfold resyncCheck
      rcases h with h | h
      · rw [if_neg]
        show ¬ st.nextSyncTime ≤ (st.sysTime + sub32 m st.prevMillis / 1000) % 4294967296
        omega
      · have hg : (afterTicks st m).getTimePtr = none := h
        simp only [hg]
        split <;> rfl
    rw [hq] at hnow
    exact ⟨_, hnow, rfl, rfl, rfl, rfl⟩
  · intro h1 h2 h3
    obtain ⟨q, hq⟩ := Option.ne_none_iff_exists'.mp h2
    have hg : (afterTicks st m).getTimePtr = some q := hq
    have hfire : (afterTicks st m).nextSyncTime ≤ (afterTicks st m).sysTime := h1
    have hres : resyncCheck (afterTicks st m) m r =
        { afterTicks st m with
          providerCalls := st.providerCalls + 1
          nextSyncTime := add32 (afterTicks st m).sysTime st.syncInterval
          Status := if st.Status = timeStatus_t.timeNotSet then timeStatus_t.timeNotSet
            else timeStatus_t.timeNeedsSync } := by
      unfold resyncCheck
      rw [if_pos hfire]
      simp only [hg, h3, ne_eq, not_true_eq_false, if_false]
      rfl
    rw [hres] at hnow
    refine ⟨_, hnow, ?_, ?_, ?_, rfl, rfl, rfl⟩
    · intro hset
      show (if st.Status = timeStatus_t.timeNotSet then timeStatus_t.timeNotSet
        else timeStatus_t.timeNeedsSync) = timeStatus_t.timeNeedsSync
      rw [hset]; rfl
    · intro hset
      show (if st.Status = timeStatus_t.timeNotSet then timeStatus_t.timeNotSet
        else timeStatus_t.timeNeedsSync) = timeStatus_t.timeNeedsSync
      rw [hset]; rfl
    · intro hset
      show (if st.Status = timeStatus_t.timeNotSet then timeStatus_t.timeNotSet
        else timeStatus_t.timeNeedsSync) = timeStatus_t.timeNotSet
      rw [hset]; rfl

/-- C12, instance: a set clock (`sysTime = 1000`, next sync due at 1300) with a
provider; at tick 1000 the check does not fire, at tick 400000 it fires, the provider
returns 0 and the status becomes `timeNeedsSync`. -/
theorem C12_resync_transition_witness :
    (exampleClock.sysTime < 4294967296 ∧ exampleClock.prevMillis < 4294967296) ∧
    (∃ s1, now exampleClock 1000 0 = some (s1, 1001) ∧
      s1.Status = timeStatus_t.timeSet ∧ s1.nextSyncTime = 1300 ∧ s1.providerCalls = 0) ∧
    (∃ s1, now exampleClock 400000 0 = some (s1, 1400) ∧
      s1.Status = timeStatus_t.timeNeedsSync ∧ s1.sysTime = 1400 ∧
      s1.nextSyncTime = 1700 ∧ s1.providerCalls = 1) := by
  refine ⟨⟨by decide, by decide⟩, ?_, ?_⟩
  · obtain ⟨s1, h1, h2, h3, _, h5⟩ :=
      (C12_resync_transition exampleClock 1000 0 (by decide) (by decide)).1
        (Or.inl (by decide))
    exact ⟨s1, h1, h2, h3, h5⟩
  · obtain ⟨s1, h1, h2, _, _, h5, h6, h7⟩ :=
      (C12_resync_transition exampleClock 400000 0 (by decide) (by decide)).2
        (by decide) (by decide) rfl
    exact ⟨s1, h1, h2 rfl, h5, h6, h7⟩

/-- C13. Successful resync, for a state with 32-bit `sysTime` and `prevMillis`, a
registered provider and a firing resync check (`nextSyncTime ≤ sysTime` after tick
accumulation): when the provider returns `r ≠ 0`, `now()` returns `r mod 2^32` and
leaves `Status = timeSet` whatever the prior status, `sysTime = r mod 2^32`,
`nextSyncTime = (r + syncInterval) mod 2^32` and `prevMillis = m`, the tick reading;
the clock variables are exactly those `setTime(r)` produces from the prior state, and
the provider has been called once. -/
theorem C13_resync_success (st : ClockState) (m r : Nat)
    (hs : st.sysTime < 4294967296) (hp : st.prevMillis < 4294967296)
    (hfire : st.nextSyncTime ≤ (st.sysTime + sub32 m st.prevMillis / 1000) % 4294967296)
    (hprov : st.getTimePtr ≠ none) (hr : r ≠ 0) :
    ∃ s1, now st m r = some (s1, r % 4294967296) ∧
      s1.Status = timeStatus_t.timeSet ∧
      s1.sysTime = r % 4294967296 ∧
      s1.nextSyncTime = (r + st.syncInterval) % 4294967296 ∧
      s1.prevMillis = m ∧
      clockVars s1 = clockVars (setTime st r m) ∧
      s1.providerCalls = st.providerCalls + 1 := by
  have hnow := now_eq st m r hs hp
  obtain ⟨q, hq⟩ := Option.ne_none_iff_exists'.mp hprov
  have hg : (afterTicks st m).getTimePtr = some q := hq
  have hf : (afterTicks st m).nextSyncTime ≤ (afterTicks st m).sysTime := hfire
  have hres : resyncCheck (afterTicks st m) m r =
      setTime { afterTicks st m with providerCalls := st.providerCalls + 1 } r m := by
    unfold resyncCheck
    rw [if_pos hf]
    simp only [hg, hr, ne_eq, not_false_eq_true, if_true]
    rfl
  rw [hres] at hnow
  refine ⟨_, hnow, rfl, rfl, ?_, rfl, rfl, rfl⟩
  show add32 (r % 4294967296) st.syncInterval = (r + st.syncInterval) % 4294967296
  exact add32_mod_left r st.syncInterval

/-- C13, instance: a clock in `timeNeedsSync` is set again by a provider reading. -/
theorem C13_resync_success_witness :
    exampleClockNeedsSync.nextSyncTime ≤
      (exampleClockNeedsSync.sysTime + sub32 400000 exampleClockNeedsSync.prevMillis / 1000) %
        4294967296 ∧
    exampleClockNeedsSync.Status = timeStatus_t.timeNeedsSync ∧
    ∃ s1, now exampleClockNeedsSync 400000 1700000000 =
        some (s1, 1700000000 % 4294967296) ∧
      s1.Status = timeStatus_t.timeSet ∧
      s1.sysTime = 1700000000 % 4294967296 ∧
      s1.nextSyncTime = (1700000000 + exampleClockNeedsSync.syncInterval) % 4294967296 ∧
      s1.prevMillis = 400000 ∧
      clockVars s1 = clockVars (setTime exampleClockNeedsSync 1700000000 400000) ∧
      s1.providerCalls = exampleClockNeedsSync.providerCalls + 1 :=
  ⟨by decide, rfl,
    C13_resync_success exampleClockNeedsSync 400000 1700000000
      (by decide) (by decide) (by decide) (by decide) (by decide)⟩

/-- The forced attempt of `setSyncProvider` when `sysTime` does not wrap during the
call: the provider is registered and called once, and the status is the one a firing
resync check produces. -/
theorem setSyncProvider_no_wrap (st : ClockState) (q m r : Nat)
    (hs : st.sysTime < 4294967296) (hp : st.prevMillis < 4294967296)
    (hnw : st.sysTime + sub32 m st.prevMillis / 1000 < 4294967296) :
    ∃ s1, setSyncProvider st (some q) m r = some s1 ∧
      s1.getTimePtr = some q ∧ s1.providerCalls = st.providerCalls + 1 ∧
      (r ≠ 0 → s1.Status = timeStatus_t.timeSet ∧ s1.sysTime = r % 4294967296) ∧
      (r = 0 → s1.Status = (if st.Status = timeStatus_t.timeNotSet
        then timeStatus_t.timeNotSet else timeStatus_t.timeNeedsSync)) := by
  generalize hst1 : ({ st with getTimePtr := some q, nextSyncTime := st.sysTime } : ClockState)
    = st1
  have e1 : st1.sysTime = st.sysTime := by rw [← hst1]
  have e2 : st1.prevMillis = st.prevMillis := by rw [← hst1]
  have e3 : st1.nextSyncTime = st.sysTime := by rw [← hst1]
  have e4 : st1.getTimePtr = some q := by rw [← hst1]
  have e5 : st1.providerCalls = st.providerCalls := by rw [← hst1]
  have e6 : st1.Status = st.Status := by rw [← hst1]
  have hnow := now_eq st1 m r (by rw [e1]; exact hs) (by rw [e2]; exact hp)
  have hsp : setSyncProvider st (some q) m r = some (resyncCheck (afterTicks st1 m) m r) := by
    unfold setSyncProvider
    simp only [hst1, hnow]
  have hf : (afterTicks st1 m).nextSyncTime ≤ (afterTicks st1 m).sysTime := by
    show st1.nextSyncTime ≤ (st1.sysTime + sub32 m st1.prevMillis / 1000) % 4294967296
    rw [e1, e2, e3, Nat.mod_eq_of_lt hnw]
    omega
  have hg : (afterTicks st1 m).getTimePtr = some q := e4
  rw [hsp]
  by_cases hr : r = 0
  · have hres : resyncCheck (afterTicks st1 m) m r =
        { afterTicks st1 m with
          providerCalls := st1.providerCalls + 1
          nextSyncTime := add32 (afterTicks st1 m).sysTime st1.syncInterval
          Status := if st1.Status = timeStatus_t.timeNotSet then timeStatus_t.timeNotSet
            else timeStatus_t.timeNeedsSync } := by
      unfold resyncCheck
      rw [if_pos hf]
      simp only [hg, hr, ne_eq, not_true_eq_false, if_false]
      rfl
    rw [hres]
    refine ⟨_, rfl, e4, ?_, fun h => absurd hr h, fun _ => ?_⟩
    · show st1.providerCalls + 1 = st.providerCalls + 1
      rw [e5]
    · show (if st1.Status = timeStatus_t.timeNotSet then timeStatus_t.timeNotSet
        else timeStatus_t.timeNeedsSync) = _
      rw [e6]
  · have hres : resyncCheck (afterTicks st1 m) m r =
        setTime { afterTicks st1 m with providerCalls := st1.providerCalls + 1 } r m := by
      unfold resyncCheck
      rw [if_pos hf]
      simp only [hg, hr, ne_eq, not_false_eq_true, if_true]
      rfl
    rw [hres]
    refine ⟨_, rfl, e4, ?_, fun _ => ⟨rfl, rfl⟩, fun h => absurd h hr⟩
    show st1.providerCalls + 1 = st.providerCalls + 1
    rw [e5]

/-- C14, the code at the failing input: `sysTime = 2^32 - 1` (the initial state after
`adjustTime(-1)`), `prevMillis = 0`, and `setSyncProvider(p)` called at tick 1000.
The tick loop wraps `sysTime` to 0, the check `nextSyncTime <= sysTime` compares
`4294967295 <= 0`, and the provider is registered but not called: the status stays
`timeNotSet` although the provider would have returned a valid time. -/
theorem C14_setSyncProvider_wrap :
    (adjustTime initialState (-1)).sysTime = 4294967295 ∧
    (setSyncProvider (adjustTime initialState (-1)) (some 1) 1000 1700000000).map
      (fun s => (s.getTimePtr, s.providerCalls, s.Status, s.sysTime, s.nextSyncTime)) =
      some (some 1, 0, timeStatus_t.timeNotSet, 0, 4294967295) := by
  decide

/-! ## C15, C18, C19: field accessors and the breakdown cache -/

theorem breakTime_mod (t : Nat) (tme : tm) :
    breakTime t tme = breakTime (t % 4294967296) tme := by
  unfold breakTime
  simp only [Nat.mod_mod]

theorem breakTime_total (t : Nat) (tme : tm) :
    breakTime t tme = some (brokenDown (t % 4294967296) tme) := by
  rw [breakTime_mod]
  exact breakTime_eq _ (Nat.mod_lt _ (by decide)) tme

theorem refreshCache_of_ne (s : ClockState) (t : Nat) (h : t ≠ s.cacheTime) :
    refreshCache s t =
      some { s with _tm := brokenDown (t % 4294967296) s._tm, cacheTime := t } := by
  unfold refreshCache
  rw [if_pos h, breakTime_total]

theorem refreshCache_of_eq (s : ClockState) (t : Nat) (h : t = s.cacheTime) :
    refreshCache s t = some s := by
  unfold refreshCache
  rw [if_neg (by simpa using h)]

theorem brokenDown_hour_range (u : Nat) (tme : tm) :
    0 ≤ (brokenDown u tme).tm_hour ∧ (brokenDown u tme).tm_hour ≤ 23 := by
  show (0 : Int) ≤ ((u / 3600 % 24 : Nat) : Int) ∧ ((u / 3600 % 24 : Nat) : Int) ≤ 23
  omega

theorem hour12_range (h : Int) (h0 : 0 ≤ h) (h23 : h ≤ 23) :
    1 ≤ hour12 h ∧ hour12 h ≤ 12 ∧ hour12 h % 12 = h % 12 ∧
    hour12 h = (if h = 0 then 12 else if h > 12 then h - 12 else h) := by
  unfold hour12
  split_ifs <;> omega

/-- A state after `refreshCache(t)`, whatever the prior state. -/
theorem refreshCache_total (s : ClockState) (t : Nat) :
    ∃ s1, refreshCache s t = some s1 ∧
      (t ≠ s.cacheTime → s1._tm = brokenDown (t % 4294967296) s._tm) ∧
      (t = s.cacheTime → s1 = s) := by
  by_cases h : t = s.cacheTime
  · exact ⟨s, refreshCache_of_eq s t h, fun hn => absurd h hn, fun _ => rfl⟩
  · exact ⟨_, refreshCache_of_ne s t h, fun _ => rfl, fun he => absurd he h⟩

/-- The six-argument `setTime` leaves the hour it was given in the cached breakdown
and does not touch the cache key. -/
theorem setTime6_cache (s : ClockState) (m : Nat) (hr min sec dy mnth yr : Int)
    (s1 : ClockState) (h : setTime6 s m hr min sec dy mnth yr = some s1) :
    s1._tm.tm_hour = hr ∧ s1.cacheTime = s.cacheTime := by
  rw [setTime6_eq] at h
  cases hmk : makeTime (componentsTm s._tm hr min sec dy mnth yr) with
  | none => rw [hmk] at h; exact absurd h (by simp)
  | some t =>
    rw [hmk, Option.map_some', Option.some.injEq] at h
    rw [← h]
    exact ⟨rfl, rfl⟩

/-- The 12-hour mapping, what holds in every state.  For every timestamp `t`, `hour(t)`
and `hourFormat12(t)` return, and with `h` the hour that `hour(t)` reports,
`hourFormat12(t)` is 12 if `h = 0`, `h - 12` if `h > 12`, and `h` otherwise.  When the
cached hour of the state is an hour (0..23, as at start, after every `breakTime` and
after every `setTime` from components with an hour in range), `h` is in 0..23,
`hourFormat12(t)` is `hour12 h` (12 if `h = 0`, `h - 12` if `13 ≤ h ≤ 23`, `h`
otherwise), lies in 1..12 and is congruent to `h` modulo 12, and the cached hour is
still an hour afterwards; 0, 12, 13, 23 are mapped to 12, 12, 1, 11. -/
theorem hourFormat12_of_hour (s : ClockState) (t : Nat) :
    (∃ s1 h, hour s t = some (s1, h) ∧
      hourFormat12 s t = some (s1, if h = 0 then 12 else if h > 12 then h - 12 else h)) ∧
    ((0 ≤ s._tm.tm_hour ∧ s._tm.tm_hour ≤ 23) →
      ∃ s1 h, hour s t = some (s1, h) ∧ 0 ≤ h ∧ h ≤ 23 ∧
        hourFormat12 s t = some (s1, hour12 h) ∧
        1 ≤ hour12 h ∧ hour12 h ≤ 12 ∧ hour12 h % 12 = h % 12 ∧
        (0 ≤ s1._tm.tm_hour ∧ s1._tm.tm_hour ≤ 23)) ∧
    (hour12 0 = 12 ∧ hour12 12 = 12 ∧ hour12 13 = 1 ∧ hour12 23 = 11) := by
  obtain ⟨s1, hrc, hne, heq⟩ := refreshCache_total s t
  have hcode : hour s t = some (s1, s1._tm.tm_hour) ∧
      hourFormat12 s t = some (s1, if s1._tm.tm_hour = 0 then 12
        else if s1._tm.tm_hour > 12 then s1._tm.tm_hour - 12 else s1._tm.tm_hour) := by
    unfold hour hourFormat12
    simp only [hrc]
    refine ⟨trivial, ?_⟩
    split_ifs <;> rfl
  refine ⟨⟨s1, _, hcode.1, hcode.2⟩, ?_, by decide⟩
  intro hinv
  have hr : 0 ≤ s1._tm.tm_hour ∧ s1._tm.tm_hour ≤ 23 := by
    by_cases h : t = s.cacheTime
    · rw [heq h]; exact hinv
    · rw [hne h]; exact brokenDown_hour_range _ _
  obtain ⟨a, b, c, d⟩ := hour12_range s1._tm.tm_hour hr.1 hr.2
  refine ⟨s1, _, hcode.1, hr.1, hr.2, ?_, a, b, c, hr⟩
  rw [hcode.2, d]

/-- An instance of `hourFormat12_of_hour`: 13:00 on 1970-01-01 from the initial
state. -/
theorem hourFormat12_of_hour_instance :
    (0 ≤ initialState._tm.tm_hour ∧ initialState._tm.tm_hour ≤ 23) ∧
    ∃ s1 h, hour initialState 46800 = some (s1, h) ∧ 0 ≤ h ∧ h ≤ 23 ∧
      hourFormat12 initialState 46800 = some (s1, hour12 h) ∧
      1 ≤ hour12 h ∧ hour12 h ≤ 12 ∧ hour12 h % 12 = h % 12 ∧
      (0 ≤ s1._tm.tm_hour ∧ s1._tm.tm_hour ≤ 23) :=
  ⟨by decide, (hourFormat12_of_hour initialState 46800).2.1 (by decide)⟩

/-- C15, the code at the failing input: from the initial state `hourFormat12(86400)`
is 12 and leaves the breakdown of `t = 86400` (00:00:00 on 1970-01-02) in the cache,
which is coherent, and `hourFormat12(86400)` is 12 again.  After
`setTime(25,0,0,1,1,2000)` the accessor `hour(86400)` reports `h = 25` and
`hourFormat12(86400)` returns 13: this is neither the value 25 that the mapping of the
specification gives for `h = 25`, nor a value in 1..12.  The same happens in the
initial state for `t = 0`. -/
theorem C15_hourFormat12_out_of_range :
    hourFormat12 initialState 86400 = some (exampleCached, 12) ∧
    Coherent exampleCached ∧
    (hourFormat12 exampleCached 86400).map Prod.snd = some 12 ∧
    (∃ s1, setTime6 exampleCached 0 25 0 0 1 1 2000 = some s1 ∧
      (hour s1 86400).map Prod.snd = some 25 ∧
      (hourFormat12 s1 86400).map Prod.snd = some 13 ∧
      (hourFormat12 s1 86400).map Prod.snd ≠ some (hour12 25) ∧
      ∀ v, (hourFormat12 s1 86400).map Prod.snd = some v → ¬ (1 ≤ v ∧ v ≤ 12)) ∧
    (∃ s1, setTime6 initialState 0 25 0 0 1 1 2000 = some s1 ∧
      (hour s1 0).map Prod.snd = some 25 ∧
      (hourFormat12 s1 0).map Prod.snd = some 13) := by
  unfold Coherent
  refine ⟨by decide, by decide, by decide, ⟨_, rfl, by decide, by decide, by decide, ?_⟩,
    ⟨_, rfl, by decide, by decide⟩⟩
  intro v hv hr
  have : v = 13 := by
    have e : (some v : Option Int) = some 13 := hv.symm.trans (by decide)
    exact Option.some.inj e
  omega

/-- The accessors on a timestamp that is not the cache key, or in a state with a
coherent cache: every field is the field of `breakTime(t)`. -/
theorem accessors_agree (s : ClockState) (t : Nat) (h : t ≠ s.cacheTime ∨ Coherent s) :
    ∃ s1 b, breakTime t s._tm = some b ∧ refreshCache s t = some s1 ∧ s1._tm = b ∧
      hour s t = some (s1, b.tm_hour) ∧ minute s t = some (s1, b.tm_min) ∧
      second s t = some (s1, b.tm_sec) ∧ day s t = some (s1, b.tm_mday) ∧
      weekday s t = some (s1, b.tm_wday) ∧ month s t = some (s1, b.tm_mon) ∧
      year s t = some (s1, b.tm_year + 1970) := by
  have key : ∃ s1 b, breakTime t s._tm = some b ∧ refreshCache s t = some s1 ∧ s1._tm = b := by
    by_cases hk : t = s.cacheTime
    · have hc : Coherent s := by
        rcases h with h | h
        · exact absurd hk h
        · exact h
      unfold Coherent at hc
      exact ⟨s, s._tm, by rw [hk]; exact hc, refreshCache_of_eq s t hk, rfl⟩
    · exact ⟨_, _, breakTime_total t s._tm, refreshCache_of_ne s t hk, rfl⟩
  obtain ⟨s1, b, hb, hrc, hs1⟩ := key
  refine ⟨s1, b, hb, hrc, hs1, ?_, ?_, ?_, ?_, ?_, ?_, ?_⟩
  · simp only [hour, hrc, hs1]
  · simp only [minute, hrc, hs1]
  · simp only [second, hrc, hs1]
  · simp only [day, hrc, hs1]
  · simp only [weekday, hrc, hs1]
  · simp only [month, hrc, hs1]
  · simp only [year, hrc, hs1, tmYearToCalendar]

/-- `refreshCache` leaves a coherent cache, whatever the cache was before when the
timestamp is not the cache key. -/
theorem refreshCache_coherent (s : ClockState) (t : Nat) (h : t ≠ s.cacheTime ∨ Coherent s) :
    ∃ s1, refreshCache s t = some s1 ∧ Coherent s1 := by
  by_cases hk : t = s.cacheTime
  · have hc : Coherent s := by
      rcases h with h | h
      · exact absurd hk h
      · exact h
    exact ⟨s, refreshCache_of_eq s t hk, hc⟩
  · refine ⟨_, refreshCache_of_ne s t hk, ?_⟩
    unfold Coherent
    show breakTime t (brokenDown (t % 4294967296) s._tm) =
      some (brokenDown (t % 4294967296) s._tm)
    rw [breakTime_total]
    rfl

/-- C18, the code at the failing input: at process start `cacheTime` is 0 and `_tm` is
all zero, so the first query `day(0)` finds `t == cacheTime`, skips `breakTime` and
returns the zero in `_tm`: `day(0) = 0`, `month(0) = 0`, `weekday(0) = 0`, while
`breakTime(0)` has day 1, month 1, weekday 5.  `year(0)` is 1970 because
`0 + 1970` happens to be right. -/
theorem C18_first_query :
    (day initialState 0).map Prod.snd = some 0 ∧
    (month initialState 0).map Prod.snd = some 0 ∧
    (weekday initialState 0).map Prod.snd = some 0 ∧
    (year initialState 0).map Prod.snd = some 1970 ∧
    (breakTime 0 initialState._tm).map (fun b => (b.tm_mday, b.tm_mon, b.tm_wday)) =
      some (1, 1, 5) ∧
    ¬ Coherent initialState := by
  unfold Coherent
  decide

/-- C19, the code at the failing input: the cache holds the breakdown of `t = 86400`
(00:00:00 on 1970-01-02) and is coherent; `setTime(12,30,45,15,6,2020)` writes its
components into `_tm` and leaves `cacheTime = 86400`; the cache is no longer coherent
and `hour(86400)` returns 12, `day(86400)` returns 15, where `breakTime(86400)` has
hour 0 and day 2. -/
theorem C19_setTime6_breaks_cache :
    Coherent exampleCached ∧
    (∃ s1, setTime6 exampleCached 0 12 30 45 15 6 2020 = some s1 ∧
      s1.cacheTime = 86400 ∧ ¬ Coherent s1 ∧
      (hour s1 86400).map Prod.snd = some 12 ∧
      (day s1 86400).map Prod.snd = some 15) ∧
    (breakTime 86400 exampleCached._tm).map (fun b => (b.tm_hour, b.tm_mday)) =
      some (0, 2) := by
  unfold Coherent
  refine ⟨by decide, ⟨_, rfl, ?_⟩, by decide⟩
  decide

/-- The operations other than `refreshCache` and the six-argument `setTime` leave the
cache key and the cached breakdown as they are, hence a coherent cache coherent. -/
theorem cache_frame (s : ClockState) (t m r : Nat) (delta : Int) :
    ((setTime s t m)._tm = s._tm ∧ (setTime s t m).cacheTime = s.cacheTime) ∧
    ((adjustTime s delta)._tm = s._tm ∧ (adjustTime s delta).cacheTime = s.cacheTime) ∧
    ((setSyncInterval s t)._tm = s._tm ∧ (setSyncInterval s t).cacheTime = s.cacheTime) ∧
    ((resyncCheck s m r)._tm = s._tm ∧ (resyncCheck s m r).cacheTime = s.cacheTime) ∧
    ((afterTicks s m)._tm = s._tm ∧ (afterTicks s m).cacheTime = s.cacheTime) := by
  refine ⟨⟨rfl, rfl⟩, ⟨rfl, rfl⟩, ⟨rfl, rfl⟩, ?_, ⟨rfl, rfl⟩⟩
  unfold resyncCheck
  split_ifs with h1 h2
  · cases hg : s.getTimePtr <;> simp [setTime]
  · cases hg : s.getTimePtr <;> simp
  · exact ⟨rfl, rfl⟩

/-! ## C20: bounded loops of `breakTime` -/

theorem yearLoop_short (n : Nat) : ∀ (fuel y time : Nat), fuel ≤ n → y + n ≤ 255 →
    cum (y + n) ≤ time → cum (y + n) < 4294967296 →
    yearLoop fuel time y (cum y) = none := by
  induction n with
  | zero =>
    intro fuel y time hf _ _ _
    have : fuel = 0 := by omega
    rw [this]; rfl
  | succ n ih =>
    intro fuel y time hf hy h1 h3
    cases fuel with
    | zero => rfl
    | succ f =>
      have e1 : y + (n + 1) = (y + 1) + n := by omega
      have hm : cum (y + 1) ≤ cum (y + (n + 1)) := by rw [e1]; exact cum_mono_add (y + 1) n
      have hd : add32 (cum y) (if LEAP_YEAR (y : Int) then 366 else 365) = cum (y + 1) := by
        have : cum (y + 1) = cum y + (if LEAP_YEAR (y : Int) then 366 else 365) := rfl
        simp only [add32]; rw [← this]
        exact Nat.mod_eq_of_lt (by omega)
      simp only [yearLoop, hd]
      rw [if_pos (by omega)]
      have hy1 : (y + 1) % 256 = y + 1 := Nat.mod_eq_of_lt (by omega)
      rw [hy1]
      apply ih f (y + 1) time (by omega) (by omega)
      · rw [← e1]; exact h1
      · rw [← e1]; exact h3

theorem monthLoop_fuel (year : Nat) (n : Nat) : ∀ (k month time : Nat),
    12 ≤ month + n → 12 ≤ month + k →
    monthLoop year n month time = monthLoop year k month time := by
  induction n with
  | zero =>
    intro k month time hn hk
    cases k with
    | zero => rfl
    | succ k => simp only [monthLoop]; rw [if_neg (by omega)]
  | succ n ih =>
    intro k month time hn hk
    cases k with
    | zero => simp only [monthLoop]; rw [if_neg (by omega)]
    | succ k =>
      simp only [monthLoop]
      by_cases h12 : month < 12
      · rw [if_pos h12, if_pos h12]
        split_ifs <;> first | rfl | exact ih k (month + 1) _ (by omega) (by omega)
      · rw [if_neg h12, if_neg h12]

/-- C20. Bounded year walk: for every `t` with `0 ≤ t < 2^32` and `d` its day number,
the year loop of `breakTime` leaves after exactly `Y + 1` tests of its condition,
that is `Y` executions of `year++` (fewer tests do not end it, more fuel changes
nothing), with year offset `Y ≤ 136` and running day total `cum (Y + 1) ≤ 50038`, the
true sum of the year lengths: the 8-bit counter and the 32-bit total never wrap.  The
month loop stops at a month index below 12, so it runs at most 12 iterations and more
fuel changes nothing.  `breakTime` returns on the whole 32-bit domain. -/
theorem C20_bounded_walk (t : Nat) (ht : t < 4294967296) (tme : tm) :
    ∃ Y, Y ≤ 136 ∧ Y < 256 ∧ cum (Y + 1) ≤ 50038 ∧ cum (Y + 1) < 4294967296 ∧
      yearLoop (Y + 1) (t % 4294967296 / 60 / 60 / 24) 0 0 = some (Y, cum (Y + 1)) ∧
      yearLoop Y (t % 4294967296 / 60 / 60 / 24) 0 0 = none ∧
      (∀ fuel, 137 ≤ fuel →
        yearLoop fuel (t % 4294967296 / 60 / 60 / 24) 0 0 = some (Y, cum (Y + 1))) ∧
      yearLoop yearFuel (t % 4294967296 / 60 / 60 / 24) 0 0 = some (Y, cum (Y + 1)) ∧
      (monthLoop Y 12 0 (t % 4294967296 / 60 / 60 / 24 - cum Y)).1 < 12 ∧
      (∀ n, 12 ≤ n → ∀ x, monthLoop Y n 0 x = monthLoop Y 12 0 x) ∧
      ∃ b, breakTime t tme = some b ∧ b.tm_year = (Y : Int) := by
  have e3 : t % 4294967296 / 60 / 60 / 24 = t / 86400 := by
    rw [Nat.mod_eq_of_lt ht]; omega
  have hd : t / 86400 ≤ 49710 := by omega
  rw [e3]
  have hY := yearOf_le (t / 86400)
  have hlo := yearOf_lower (t / 86400)
  have hup := yearOf_upper (t / 86400) hd
  have hcb : cum (yearOf (t / 86400) + 1) ≤ 50038 := by
    have h1 : cum (yearOf (t / 86400) + 1) ≤ cum 137 := cum_mono (by omega)
    rw [cum_137] at h1
    exact h1
  have hspec : ∀ fuel, yearOf (t / 86400) + 1 ≤ fuel →
      yearLoop fuel (t / 86400) 0 0 =
        some (yearOf (t / 86400), cum (yearOf (t / 86400) + 1)) := by
    intro fuel hf
    have h := yearLoop_spec (yearOf (t / 86400)) fuel 0 (t / 86400) hf (by omega)
      (by rw [Nat.zero_add]; exact hlo) (by rw [Nat.zero_add]; exact hup)
      (by rw [Nat.zero_add]; omega)
    simp only [Nat.zero_add] at h
    exact h
  have hshort : yearLoop (yearOf (t / 86400)) (t / 86400) 0 0 = none := by
    have h := yearLoop_short (yearOf (t / 86400)) (yearOf (t / 86400)) 0 (t / 86400)
      (le_refl _) (by omega) (by rw [Nat.zero_add]; exact hlo) (by rw [Nat.zero_add]; omega)
    exact h
  have hmw := (monthWalk_doy (t / 86400) hd).1
  rw [← monthLoop_eq_walk] at hmw
  refine ⟨yearOf (t / 86400), hY, by omega, hcb, by omega, hspec _ (le_refl _), hshort,
    fun fuel hf => hspec fuel (by omega), hspec yearFuel (by unfold yearFuel; omega), hmw,
    fun n hn x => monthLoop_fuel _ n 12 0 x (by omega) (by omega),
    brokenDown t tme, breakTime_eq t ht tme, rfl⟩

/-- C20, instance: the last representable second; the walk ends at year offset 136. -/
theorem C20_bounded_walk_witness :
    4294967295 < 4294967296 ∧
    ∃ Y, Y ≤ 136 ∧ Y < 256 ∧ cum (Y + 1) ≤ 50038 ∧ cum (Y + 1) < 4294967296 ∧
      yearLoop (Y + 1) (4294967295 % 4294967296 / 60 / 60 / 24) 0 0 =
        some (Y, cum (Y + 1)) ∧
      yearLoop Y (4294967295 % 4294967296 / 60 / 60 / 24) 0 0 = none ∧
      (∀ fuel, 137 ≤ fuel →
        yearLoop fuel (4294967295 % 4294967296 / 60 / 60 / 24) 0 0 =
          some (Y, cum (Y + 1))) ∧
      yearLoop yearFuel (4294967295 % 4294967296 / 60 / 60 / 24) 0 0 =
        some (Y, cum (Y + 1)) ∧
      (monthLoop Y 12 0 (4294967295 % 4294967296 / 60 / 60 / 24 - cum Y)).1 < 12 ∧
      (∀ n, 12 ≤ n → ∀ x, monthLoop Y n 0 x = monthLoop Y 12 0 x) ∧
      ∃ b, breakTime 4294967295 ⟨0, 0, 0, 0, 0, 0, 0, 0, 0⟩ = some b ∧
        b.tm_year = (Y : Int) :=
  ⟨by decide, C20_bounded_walk 4294967295 (by decide) ⟨0, 0, 0, 0, 0, 0, 0, 0, 0⟩⟩

/-! ## C16, C17: time zone string and `%z` substitution -/

theorem fmtSigned03_pos : ∀ h : Nat, h < 100 →
    fmtSigned03 (h : Int) = '+' :: twoDigits h := by
  decide!

theorem fmtSigned03_neg : ∀ h : Nat, h < 100 → 0 < h →
    fmtSigned03 (-(h : Int)) = '-' :: twoDigits h := by
  decide!

theorem fmtUnsigned02_eq : ∀ n < 100, fmtUnsigned02 n = twoDigits n := by
  decide!

theorem t_abs_natCast (n : Nat) : t_abs (n : Int) = (n : Int) := by
  unfold t_abs
  split <;> omega

theorem t_abs_neg_natCast (n : Nat) : t_abs (-(n : Int)) = (n : Int) := by
  unfold t_abs
  split <;> omega

theorem take15_six (a b c d e f : Char) : [a, b, c, d, e, f].take 15 = [a, b, c, d, e, f] := rfl

/-- The time zone string of the code against the specification's for a positive
offset below one day: they agree. -/
theorem timeZoneStr_pos (n : Nat) (h0 : 0 < n) (hn : n < 86400) :
    timeZoneStr (n : Int) = tzSpec (n : Int) := by
  have hne : (n : Int) ≠ 0 := by omega
  have hpos : (n : Int) > 0 := by omega
  unfold timeZoneStr tzSpec
  rw [if_neg hne, if_neg hne, if_pos hpos]
  have e1 : Int.tdiv (n : Int) 3600 = ((n / 3600 : Nat) : Int) := (Int.ofNat_tdiv n 3600).symm
  have e2 : Int.tdiv (n : Int) 60 = ((n / 60 : Nat) : Int) := (Int.ofNat_tdiv n 60).symm
  have e3 : Int.tmod ((n / 60 : Nat) : Int) 60 = ((n / 60 % 60 : Nat) : Int) :=
    (Int.ofNat_tmod (n / 60) 60).symm
  rw [e1, e2, t_abs_natCast, e3, Int.toNat_natCast, fmtSigned03_pos _ (by omega),
    fmtUnsigned02_eq _ (by omega), Int.natAbs_ofNat]
  rfl

/-- The time zone string of the code for a negative offset above minus one day: the
sign is `+` when the offset is above -3600, where the specification's sign is `-`;
from -3600 downwards they agree. -/
theorem timeZoneStr_neg (n : Nat) (h0 : 0 < n) (hn : n < 86400) :
    timeZoneStr (-(n : Int)) =
      (if n < 3600 then '+' else '-') ::
        (twoDigits (n / 3600) ++ [':'] ++ twoDigits (n / 60 % 60)) ∧
    tzSpec (-(n : Int)) = '-' :: (twoDigits (n / 3600) ++ [':'] ++ twoDigits (n / 60 % 60)) := by
  have hne : (-(n : Int)) ≠ 0 := by omega
  have hpos : ¬ (-(n : Int)) > 0 := by omega
  unfold timeZoneStr tzSpec
  rw [if_neg hne, if_neg hne, if_neg hpos]
  have e1 : Int.tdiv (-(n : Int)) 3600 = -((n / 3600 : Nat) : Int) := by
    rw [Int.neg_tdiv, Int.ofNat_tdiv n 3600]
    rfl
  have e2 : Int.tdiv (-(n : Int)) 60 = -((n / 60 : Nat) : Int) := by
    rw [Int.neg_tdiv, Int.ofNat_tdiv n 60]
    rfl
  have e3 : Int.tmod ((n / 60 : Nat) : Int) 60 = ((n / 60 % 60 : Nat) : Int) :=
    (Int.ofNat_tmod (n / 60) 60).symm
  have e4 : (-(n : Int)).natAbs = n := by omega
  rw [e1, e2, t_abs_neg_natCast, e3, Int.toNat_natCast, fmtUnsigned02_eq _ (by omega), e4]
  refine ⟨?_, rfl⟩
  by_cases hs : n < 3600
  · have hz : n / 3600 = 0 := by omega
    rw [if_pos hs, hz]
    rfl
  · rw [if_neg hs, fmtSigned03_neg _ (by omega) (by omega)]
    rfl

/-- C16, the code at the failing input: for the offset `z = -1800` (UTC-00:30) the
quotient `time_zone/3600` is 0, `%+03d` prints it as `+00`, and the string is
`+00:30`, where the specification's string is `-00:30`.  The offsets 0, 19800 and
-12600 give `Z`, `+05:30` and `-03:30`. -/
theorem C16_timeZoneStr_sign :
    timeZoneStr (-1800) = "+00:30".toList ∧
    tzSpec (-1800) = "-00:30".toList ∧
    timeZoneStr 0 = "Z".toList ∧
    timeZoneStr 19800 = "+05:30".toList ∧
    timeZoneStr (-12600) = "-03:30".toList := by
  decide

/-- C17, the code at the failing input: pattern `%z %H:%M:%S` with offset 19800.  The
tail of 10 bytes is copied from index 2 to index 6 by `memcpy`, whose regions
overlap: by the C standard the behaviour is undefined, and a `memcpy` that copies
upwards byte by byte leaves `+05:30 %H: %H: %`, where the pattern with `%z` replaced
is `+05:30 %H:%M:%S` (what a `memmove` leaves).  With `%z` at the end of the pattern,
as in `TIME_FORMAT_ISO8601_FULL`, the regions do not overlap and the result is
right. -/
theorem C17_substitution_overlap :
    formatStrOf memcpyStd "%z %H:%M:%S".toList 19800 = none ∧
    formatStrOf memcpyAscending "%z %H:%M:%S".toList 19800 =
      some "+05:30 %H: %H: %".toList ∧
    replaceZ (timeZoneStr 19800) "%z %H:%M:%S".toList = "+05:30 %H:%M:%S".toList ∧
    formatStrOf memcpyMove "%z %H:%M:%S".toList 19800 = some "+05:30 %H:%M:%S".toList ∧
    formatStrOf memcpyStd TIME_FORMAT_ISO8601_FULL 19800 =
      some "%Y-%m-%dT%H:%M:%S+05:30".toList ∧
    replaceZ (timeZoneStr 19800) TIME_FORMAT_ISO8601_FULL =
      "%Y-%m-%dT%H:%M:%S+05:30".toList := by
  decide!

/-! ## C21: reverse round trip -/

/-- A valid calendar instant is encoded by `makeTime` into a 32-bit value that
`breakTime` decodes into the same year, month, day, hour, minute and second. -/
theorem breakTime_makeTime_valid (b : tm) (hb : ValidInstant b) (tme : tm) :
    ∃ T, makeTime b = some T ∧ T < 4294967296 ∧
      ∃ b1, breakTime T tme = some b1 ∧ b1.tm_year = b.tm_year ∧ b1.tm_mon = b.tm_mon ∧
        b1.tm_mday = b.tm_mday ∧ b1.tm_hour = b.tm_hour ∧ b1.tm_min = b.tm_min ∧
        b1.tm_sec = b.tm_sec := by
  obtain ⟨hy0, hy1, hm0, hm1, hd0, hd1, hh0, hh1, hmi0, hmi1, hs0, hs1⟩ := hb
  have hmo : (b.tm_mon - 1).toNat < 12 := by omega
  have hdim := daysInMonth_eq (1970 + b.tm_year).toNat (b.tm_mon - 1).toNat hmo
  have hmn : (b.tm_mon - 1).toNat + 1 = b.tm_mon.toNat := by omega
  rw [hmn] at hdim
  have hleap := LEAP_YEAR_eq b.tm_year.toNat
  have hyn : 1970 + b.tm_year.toNat = (1970 + b.tm_year).toNat := by omega
  rw [hyn] at hleap
  rw [hdim, ← hleap] at hd1
  obtain ⟨T, hT, hTlt, b1, hb1, e1, e2, e3, e4, e5, e6⟩ :=
    breakTime_makeTime_nat b b.tm_year.toNat (b.tm_mon - 1).toNat (b.tm_mday - 1).toNat
      b.tm_hour.toNat b.tm_min.toNat b.tm_sec.toNat
      (by omega) hmo (by omega) (by omega) (by omega) (by omega)
      (show b.tm_year = ((b.tm_year.toNat : Nat) : Int) by omega)
      (show b.tm_mon = (((b.tm_mon - 1).toNat : Nat) : Int) + 1 by omega)
      (show b.tm_mday = ((((b.tm_mday - 1).toNat + 1 : Nat)) : Int) by omega)
      (show b.tm_hour = ((b.tm_hour.toNat : Nat) : Int) by omega)
      (show b.tm_min = ((b.tm_min.toNat : Nat) : Int) by omega)
      (show b.tm_sec = ((b.tm_sec.toNat : Nat) : Int) by omega) tme
  refine ⟨T, hT, hTlt, b1, hb1, ?_, ?_, ?_, ?_, ?_, ?_⟩
  · rw [e1]; omega
  · rw [e2]; omega
  · rw [e3]; omega
  · rw [e4]; omega
  · rw [e5]; omega
  · rw [e6]; omega

/-- C21. Reverse round trip: for every valid calendar instant `b` (`tm_year` in
0..135, `tm_mon` in 1..12, `tm_mday` in 1..length of that month in year
`1970 + tm_year`, `tm_hour` in 0..23, `tm_min` in 0..59, `tm_sec` in 0..59),
`makeTime(b)` has a value below `2^32` and `breakTime` of it has the same `tm_year`,
`tm_mon`, `tm_mday`, `tm_hour`, `tm_min` and `tm_sec` as `b`; two valid instants with
the same `makeTime` value have these six fields equal; and `makeTime` does not depend
on `tm_wday` (nor on `tm_yday` and `tm_isdst`), for any structure. -/
theorem C21_reverse_round_trip (b : tm) (hb : ValidInstant b) (tme : tm) :
    (∃ T, makeTime b = some T ∧ T < 4294967296 ∧
      ∃ b1, breakTime T tme = some b1 ∧ b1.tm_year = b.tm_year ∧ b1.tm_mon = b.tm_mon ∧
        b1.tm_mday = b.tm_mday ∧ b1.tm_hour = b.tm_hour ∧ b1.tm_min = b.tm_min ∧
        b1.tm_sec = b.tm_sec) ∧
    (∀ b2 : tm, ValidInstant b2 → makeTime b2 = makeTime b →
      b2.tm_year = b.tm_year ∧ b2.tm_mon = b.tm_mon ∧ b2.tm_mday = b.tm_mday ∧
      b2.tm_hour = b.tm_hour ∧ b2.tm_min = b.tm_min ∧ b2.tm_sec = b.tm_sec) ∧
    (∀ (c : tm) (w yd dst : Int),
      makeTime { c with tm_wday := w, tm_yday := yd, tm_isdst := dst } = makeTime c) := by
  refine ⟨breakTime_makeTime_valid b hb tme, ?_, fun _ _ _ _ => rfl⟩
  intro b2 hb2 heq
  obtain ⟨T, hT, _, b1, hb1, e1, e2, e3, e4, e5, e6⟩ := breakTime_makeTime_valid b hb tme
  obtain ⟨T2, hT2, _, b3, hb3, f1, f2, f3, f4, f5, f6⟩ := breakTime_makeTime_valid b2 hb2 tme
  rw [hT, hT2, Option.some.injEq] at heq
  rw [heq, hb1, Option.some.injEq] at hb3
  rw [← f1, ← f2, ← f3, ← f4, ← f5, ← f6, ← hb3]
  exact ⟨e1, e2, e3, e4, e5, e6⟩

/-- C21, instance: 2000-02-29 12:34:56 is encoded as 951827696 and decoded back; the
same date with another `tm_wday` gives the same value. -/
theorem C21_reverse_round_trip_witness :
    ValidInstant exampleInstant ∧
    (∃ T, makeTime exampleInstant = some T ∧ T < 4294967296 ∧
      ∃ b1, breakTime T exampleInstant = some b1 ∧ b1.tm_year = exampleInstant.tm_year ∧
        b1.tm_mon = exampleInstant.tm_mon ∧ b1.tm_mday = exampleInstant.tm_mday ∧
        b1.tm_hour = exampleInstant.tm_hour ∧ b1.tm_min = exampleInstant.tm_min ∧
        b1.tm_sec = exampleInstant.tm_sec) ∧
    makeTime exampleInstant = some 951827696 ∧
    ValidInstant exampleInstantLast ∧
    (makeTime exampleInstantLast = makeTime exampleInstant →
      exampleInstantLast.tm_year = exampleInstant.tm_year) := by
  have hv : ValidInstant exampleInstant := by unfold ValidInstant; decide
  have hv2 : ValidInstant exampleInstantLast := by unfold ValidInstant; decide
  exact ⟨hv, (C21_reverse_round_trip exampleInstant hv exampleInstant).1, by decide, hv2,
    fun h => ((C21_reverse_round_trip exampleInstant hv exampleInstant).2.1
      exampleInstantLast hv2 h).1⟩

/-! ## C22: buffer safety of the `%z` substitution -/

theorem initFormatStr_nil : initFormatStr [] = List.replicate 64 NUL := by decide

/-- On the empty pattern the scan walks over the whole buffer: from any index up to
64 no amount of fuel ends it inside the buffer. -/
theorem substLoop_empty (memcpy : List Char → Nat → Nat → Nat → Option (List Char))
    (tz : List Char) (fuel : Nat) : ∀ i, i ≤ 64 →
    substLoop memcpy tz fuel i 0 (initFormatStr []) = none := by
  induction fuel with
  | zero => intro i _; rfl
  | succ f ih =>
    intro i hi
    have hlt : i < sub32 0 1 := by
      have : sub32 0 1 = 4294967295 := by decide
      rw [this]; omega
    rcases Nat.lt_or_ge i 64 with h | h
    · have hget : (initFormatStr []).get? i = some NUL := by
        rw [initFormatStr_nil, List.get?_eq_getElem?, List.getElem?_replicate]
        simp [h]
      have hne : ¬ (NUL = '%') := by decide
      simp only [substLoop, if_pos hlt, hget, if_neg hne]
      exact ih (i + 1) (by omega)
    · have hget : (initFormatStr []).get? i = none := by
        rw [initFormatStr_nil, List.get?_eq_getElem?, List.getElem?_replicate]
        simp
        omega
      simp only [substLoop, if_pos hlt, hget]

/-- The scan on the empty pattern reaches index 64: the first 64 iterations read the
zero bytes of the buffer and go on. -/
theorem substLoop_empty_reaches (memcpy : List Char → Nat → Nat → Nat → Option (List Char))
    (tz : List Char) (fuel : Nat) : ∀ k i, i + k = 64 →
    substLoop memcpy tz (fuel + k) i 0 (initFormatStr []) =
      substLoop memcpy tz fuel 64 0 (initFormatStr []) := by
  intro k
  induction k with
  | zero => intro i hi; rw [Nat.add_zero] at hi; rw [hi]; rfl
  | succ k ih =>
    intro i hi
    have hlt : i < sub32 0 1 := by
      have : sub32 0 1 = 4294967295 := by decide
      rw [this]; omega
    have hget : (initFormatStr []).get? i = some NUL := by
      rw [initFormatStr_nil, List.get?_eq_getElem?, List.getElem?_replicate]
      simp
      omega
    have hne : ¬ (NUL = '%') := by decide
    have hf : fuel + (k + 1) = (fuel + k) + 1 := by omega
    rw [hf]
    simp only [substLoop, if_pos hlt, hget, if_neg hne]
    exact ih (i + 1) (by omega)

/-- C22, the code at two failing inputs.  Empty pattern: `len` is 0, the bound
`len-1` of the scan is `2^32 - 1` as a `size_t`, so position 0 is inspected although
the string is empty, the scan runs over the 64 zero bytes and its next read,
`format_str[64]`, is outside the buffer; whatever `memcpy` and the time zone string
are, the substitution has no value inside the buffer.  Pattern of 58 letters and
`%z` with offset 19800: the expansion has 64 characters, and the tail copy
`memcpy(format_str+64, format_str+60, 1)` writes `format_str[64]`, outside the
buffer.  A pattern of 57 letters and `%z` still fits. -/
theorem C22_buffer_overrun :
    (strlen (initFormatStr []) = some 0 ∧ (0 < sub32 0 1) ∧
      (initFormatStr []).length = 64 ∧ (initFormatStr []).get? 64 = none ∧
      (∀ fuel,
        substLoop memcpyMove (timeZoneStr 19800) (fuel + 64) 0 0 (initFormatStr []) =
          substLoop memcpyMove (timeZoneStr 19800) fuel 64 0 (initFormatStr [])) ∧
      (∀ fuel, substLoop memcpyMove (timeZoneStr 19800) fuel 0 0 (initFormatStr []) = none) ∧
      formatStrOf memcpyMove [] 19800 = none ∧
      formatStrOf memcpyStd [] 0 = none ∧
      formatStrOf memcpyAscending [] 0 = none) ∧
    (examplePatternOverflow.length = 60 ∧
      (replaceZ (timeZoneStr 19800) examplePatternOverflow).length = 64 ∧
      strlen (initFormatStr examplePatternOverflow) = some 60 ∧
      memcpyMove (initFormatStr examplePatternOverflow) (58 + (timeZoneStr 19800).length)
        (58 + 2) (sub32 (sub32 60 58) 1) = none ∧
      formatStrOf memcpyMove examplePatternOverflow 19800 = none ∧
      formatStrOf memcpyAscending examplePatternOverflow 19800 = none ∧
      formatStrOf memcpyStd examplePatternOverflow 19800 = none) ∧
    (formatStrOf memcpyMove (List.replicate 57 'a' ++ "%z".toList) 19800).map List.length =
      some 63 := by
  refine ⟨⟨by decide, by decide, by decide, by decide, ?_, ?_, by decide, by decide,
    by decide⟩, ?_, ?_⟩
  · intro fuel
    exact substLoop_empty_reaches memcpyMove _ fuel 64 0 (by omega)
  · intro fuel
    exact substLoop_empty memcpyMove _ fuel 0 (by omega)
  · decide!
  · decide!

end TimeLib
